import Mathlib

/-!
Shallow embedding of the CHIP-8 emulator core (`src/core.rs`) and proofs
about the claims of its specification.

Modelling conventions:
* `u8`/`u16` values are `Nat`; wherever the source wraps (`wrapping_add`,
  `overflowing_add`, `overflowing_sub`, `<<=`) the model takes `% 256`
  explicitly; `u8`/`u16` range invariants that Rust enforces by type are
  added as hypotheses where a theorem needs them.
* A Rust panic (out-of-bounds array index, checked integer overflow) aborts
  the emulation thread; fallible steps therefore return `Option CoreState`
  with `none` for the aborted computation.
* `memory` is a total function `Nat → Nat` standing for the `[u8; 4096]`
  array; every access the source performs through indexing is guarded by
  `< 4096` in the model, with `none` modelling the index panic.
* The framebuffer `PixelBuf` stores only `Rgba::WHITE`/`Rgba::BLACK` pixels,
  so it is modelled as `Nat → Nat → Bool` (`true` = white).
* The opcode nibble extractions `(op & 0xF000) >> 12`, `(op & 0x0F00) >> 8`,
  `(op & 0x00F0) >> 4`, `op & 0x00FF`, `op & 0x000F`, `op & 0x0FFF` are
  written as the arithmetically equal `op / 4096 % 16`, `op / 256 % 16`,
  `op / 16 % 16`, `op % 256`, `op % 16`, `op % 4096`.
* External effects (random bytes, key state, the blocking `FX0A` key wait)
  are supplied by an `Inputs` oracle; the GUI publish (`update_gui`) does not
  change `CoreState` and is tracked only as a publish count in the scheduler
  iteration model.
* `Vec::push`/`Vec::pop` on the call stack are modelled by list cons and
  head-removal (a stack in both cases).
-/

/-- `ErrorKind` from `src/core.rs` (paths kept as strings). -/
inductive ErrorKind where
  | invalidOpcode (opcode : Nat) (address : Nat)
  | invalidReturn (address : Nat)
  | romTooLarge (path : String) (size : Nat) (allowed : Nat)
  | invalidRom (path : String) (specificError : String)
deriving DecidableEq

/-- `Event` from `src/core.rs`.  `loadRom` carries the outcome of
`fs::read` (`Except` error = I/O failure message) together with the
displayable file name, since file reading is outside the model. -/
inductive Event where
  | changeRunning (b : Bool)
  | stepFrame
  | loadRom (path : String) (fileName : String) (contents : Except String (List Nat))
  | changeOpcodesPerFrame (n : Nat)
  | exit

/-- `CoreState` from `src/core.rs`.  Timing instrumentation
(`actual_frame_time`, `frame_time_with_sleep`, `fps`) and the `key_map`
(egui key bindings) are external to the machine semantics and omitted. -/
structure CoreState where
  image : Nat → Nat → Bool
  current_frame : Nat
  running : Bool
  step_frame : Bool
  error : Option ErrorKind
  memory : Nat → Nat
  v_registers : Nat → Nat
  i_register : Nat
  program_counter : Nat
  call_stack : List Nat
  delay_timer : Nat
  sound_timer : Nat
  rom_name : Option String
  rom_size : Option Nat
  opcodes_per_frame : Nat
  exit_requested : Bool

/-- Oracle for the external inputs an instruction may consult. -/
structure Inputs where
  randomByte : Nat
  keysDown : Nat → Bool
  waitKey : Option Nat

/-- Pointwise update of a `Nat → Nat` array model. -/
def upd (f : Nat → Nat) (a v : Nat) : Nat → Nat :=
  fun b => if b = a then v else f b

/-- Pointwise update of the framebuffer model. -/
def upd2 (f : Nat → Nat → Bool) (x y : Nat) (v : Bool) : Nat → Nat → Bool :=
  fun a b => if a = x ∧ b = y then v else f a b

/-- `copy_from_slice` starting at `start`. -/
def copy_into (m : Nat → Nat) (start : Nat) (bs : List Nat) : Nat → Nat :=
  fun a => if start ≤ a ∧ a < start + bs.length then bs.getD (a - start) 0 else m a

/-- The list `[start, start+1, ..., start+len-1]`, used for the source's
`for i in a..b` loops. -/
def nat_range (start len : Nat) : List Nat :=
  match len with
  | 0 => []
  | n + 1 => start :: nat_range (start + 1) n

/-- The 80-byte built-in font loaded by `Core::load_font`. -/
def font_data : List Nat :=
  [0x60, 0xD0, 0x90, 0xB0, 0x60,
   0x20, 0x60, 0x20, 0x20, 0x70,
   0x60, 0x90, 0x20, 0x40, 0xF0,
   0x60, 0x90, 0x20, 0x90, 0x60,
   0x20, 0x60, 0xA0, 0xF0, 0x20,
   0xF0, 0x80, 0xE0, 0x10, 0xE0,
   0x60, 0x80, 0xE0, 0x90, 0x60,
   0xF0, 0x10, 0x20, 0x40, 0x40,
   0x60, 0x90, 0x60, 0x90, 0x60,
   0x60, 0x90, 0x70, 0x10, 0x60,
   0x60, 0x90, 0xF0, 0x90, 0x90,
   0xE0, 0x90, 0xE0, 0x90, 0xE0,
   0x60, 0x80, 0x80, 0x80, 0x60,
   0xE0, 0x90, 0x90, 0x90, 0xE0,
   0xF0, 0x80, 0xE0, 0x80, 0xF0,
   0xF0, 0x80, 0xE0, 0x80, 0x80]

/-- `CoreState::new`: fresh machine state (framebuffer black, memory zero,
PC at 512). -/
def CoreState.new : CoreState :=
  { image := fun _ _ => false
    current_frame := 0
    running := false
    step_frame := false
    error := none
    memory := fun _ => 0
    v_registers := fun _ => 0
    i_register := 0
    program_counter := 512
    call_stack := []
    delay_timer := 0
    sound_timer := 0
    rom_name := none
    rom_size := none
    opcodes_per_frame := 20
    exit_requested := false }

/-- `Core::load_font`. -/
def load_font (s : CoreState) : CoreState :=
  { s with memory := copy_into s.memory 0 font_data }

/-- The state after `Core::initialise` (font loaded), the state the spawned
scheduler thread starts from. -/
def initial_state : CoreState :=
  load_font CoreState.new

/-- `Core::core_error` (the accompanying `update_gui` publish does not touch
the state). -/
def core_error (s : CoreState) (e : ErrorKind) : CoreState :=
  { s with error := some e }

/-- `Core::skip_opcode`. -/
def skip_opcode (s : CoreState) : CoreState :=
  { s with program_counter := s.program_counter + 2 }

/-- `Core::should_exit`. -/
def should_exit (s : CoreState) : Bool :=
  s.error.isSome || s.exit_requested

/-- `Core::write_mem`: `self.state.memory[address as usize] = value`, with
the index panic modelled as `none`. -/
def write_mem (s : CoreState) (address value : Nat) : Option CoreState :=
  if address < 4096 then some { s with memory := upd s.memory address value } else none

/-- `Core::read_mem`, with the index panic modelled as `none`. -/
def read_mem (s : CoreState) (address : Nat) : Option Nat :=
  if address < 4096 then some (s.memory address) else none

/-- `Core::load_game` after `fs::read` returned `contents`; `file_name` is
the displayable name derived from the path. -/
def load_game (s : CoreState) (path file_name : String) (contents : Except String (List Nat)) :
    CoreState :=
  match contents with
  | .error e => core_error s (.invalidRom path e)
  | .ok rom =>
    let s := { s with rom_name := some file_name, rom_size := some rom.length }
    if rom.length > 4096 - 512 then
      core_error s (.romTooLarge path rom.length (4096 - 512))
    else
      { s with memory := copy_into s.memory 512 rom }

/-- `Core::is_key_down`. -/
def is_key_down (inp : Inputs) (key : Nat) : Bool :=
  if 15 < key then false else inp.keysDown key

/-- `0x00E0`, `0x00EE`, `0x0NNN` (`Core::execute_opcode_0`).  At this point
the fetch has already advanced `program_counter` by 2, so the fetch address
is `program_counter - 2`. -/
def execute_opcode_0 (s : CoreState) (opcode : Nat) : CoreState :=
  if opcode = 0x00E0 then
    { s with image := fun _ _ => false }
  else if opcode = 0x00EE then
    match s.call_stack with
    | pc :: rest => { s with program_counter := pc, call_stack := rest }
    | [] => core_error s (.invalidReturn (s.program_counter - 2))
  else
    s

/-- `0x1NNN` (`Core::execute_opcode_1`). -/
def execute_opcode_1 (s : CoreState) (opcode : Nat) : CoreState :=
  { s with program_counter := opcode % 4096 }

/-- `0x2NNN` (`Core::execute_opcode_2`). -/
def execute_opcode_2 (s : CoreState) (opcode : Nat) : CoreState :=
  { s with call_stack := s.program_counter :: s.call_stack, program_counter := opcode % 4096 }

/-- `0x3XNN` (`Core::execute_opcode_3`). -/
def execute_opcode_3 (s : CoreState) (opcode : Nat) : CoreState :=
  let x := opcode / 256 % 16
  let nn := opcode % 256
  if s.v_registers x = nn then skip_opcode s else s

/-- `0x4XNN` (`Core::execute_opcode_4`). -/
def execute_opcode_4 (s : CoreState) (opcode : Nat) : CoreState :=
  let x := opcode / 256 % 16
  let nn := opcode % 256
  if s.v_registers x ≠ nn then skip_opcode s else s

/-- `0x5XY0` (`Core::execute_opcode_5`): a nonzero low nibble records an
`InvalidOpcode` error, after which the comparison is still evaluated. -/
def execute_opcode_5 (s : CoreState) (opcode : Nat) : CoreState :=
  let s := if opcode % 16 ≠ 0 then
    core_error s (.invalidOpcode opcode (s.program_counter - 2)) else s
  let x := opcode / 256 % 16
  let y := opcode / 16 % 16
  if s.v_registers x = s.v_registers y then skip_opcode s else s

/-- `0x6XNN` (`Core::execute_opcode_6`). -/
def execute_opcode_6 (s : CoreState) (opcode : Nat) : CoreState :=
  let x := opcode / 256 % 16
  let nn := opcode % 256
  { s with v_registers := upd s.v_registers x nn }

/-- `0x7XNN` (`Core::execute_opcode_7`): `wrapping_add` on `u8`. -/
def execute_opcode_7 (s : CoreState) (opcode : Nat) : CoreState :=
  let x := opcode / 256 % 16
  let nn := opcode % 256
  { s with v_registers := upd s.v_registers x ((s.v_registers x + nn) % 256) }

/-- `0x8XY_` family (`Core::execute_opcode_8`).  For `u8` operands the
`overflowing_add` result is `(a+b) % 256` with carry `256 ≤ a+b`, and the
`overflowing_sub` result is `(a + 256 - b) % 256` with borrow `a < b`. -/
def execute_opcode_8 (s : CoreState) (opcode : Nat) : CoreState :=
  let last_nibble := opcode % 16
  let x := opcode / 256 % 16
  let y := opcode / 16 % 16
  if last_nibble = 0x0 then
    { s with v_registers := upd s.v_registers x (s.v_registers y) }
  else if last_nibble = 0x1 then
    { s with v_registers :=
        (upd (upd s.v_registers x (s.v_registers x ||| s.v_registers y)) 15 0) }
  else if last_nibble = 0x2 then
    { s with v_registers :=
        (upd (upd s.v_registers x (s.v_registers x &&& s.v_registers y)) 15 0) }
  else if last_nibble = 0x3 then
    { s with v_registers :=
        (upd (upd s.v_registers x (s.v_registers x ^^^ s.v_registers y)) 15 0) }
  else if last_nibble = 0x4 then
    let result := (s.v_registers x + s.v_registers y) % 256
    let carry := 256 ≤ s.v_registers x + s.v_registers y
    { s with v_registers :=
        (upd (upd s.v_registers x result) 15 (if carry then 1 else 0)) }
  else if last_nibble = 0x5 then
    let result := (s.v_registers x + 256 - s.v_registers y) % 256
    let borrow := s.v_registers x < s.v_registers y
    { s with v_registers :=
        (upd (upd s.v_registers x result) 15 (if borrow then 0 else 1)) }
  else if last_nibble = 0x6 then
    let lsb := s.v_registers x % 2
    { s with v_registers := upd (upd s.v_registers x (s.v_registers x / 2)) 15 lsb }
  else if last_nibble = 0x7 then
    let result := (s.v_registers y + 256 - s.v_registers x) % 256
    let borrow := s.v_registers y < s.v_registers x
    { s with v_registers :=
        (upd (upd s.v_registers x result) 15 (if borrow then 0 else 1)) }
  else if last_nibble = 0xE then
    let msb := s.v_registers x / 128 % 2
    { s with v_registers := upd (upd s.v_registers x (s.v_registers x * 2 % 256)) 15 msb }
  else
    core_error s (.invalidOpcode opcode (s.program_counter - 2))

/-- `0x9XY0` (`Core::execute_opcode_9`): a nonzero low nibble records an
`InvalidOpcode` error, after which the comparison is still evaluated. -/
def execute_opcode_9 (s : CoreState) (opcode : Nat) : CoreState :=
  let s := if opcode % 16 ≠ 0 then
    core_error s (.invalidOpcode opcode (s.program_counter - 2)) else s
  let x := opcode / 256 % 16
  let y := opcode / 16 % 16
  if s.v_registers x ≠ s.v_registers y then skip_opcode s else s

/-- `0xANNN` (`Core::execute_opcode_a`). -/
def execute_opcode_a (s : CoreState) (opcode : Nat) : CoreState :=
  { s with i_register := opcode % 4096 }

/-- `0xBNNN` (`Core::execute_opcode_b`). -/
def execute_opcode_b (s : CoreState) (opcode : Nat) : CoreState :=
  { s with program_counter := s.v_registers 0 + opcode % 4096 }

/-- `0xCXNN` (`Core::execute_opcode_c`): `rand::random::<u8>() & mask`,
the random byte supplied by the oracle. -/
def execute_opcode_c (inp : Inputs) (s : CoreState) (opcode : Nat) : CoreState :=
  let x := opcode / 256 % 16
  let mask := opcode % 256
  { s with v_registers := upd s.v_registers x (inp.randomByte % 256 &&& mask) }

/-- One pixel of the `DXYN` inner loop body: clip check, XOR write, and the
collision update of VF.  `pixel_value` is the extracted sprite bit;
`old_pixel_value` of the source is `if s.image x y then 1 else 0`, and the
source's `old_pixel_value == 1` test is written as the equal test on the
pixel itself. -/
def draw_pixel (s : CoreState) (x y pixel_value : Nat) : CoreState :=
  if 64 - 1 < x ∨ 32 - 1 < y then s
  else if pixel_value ^^^ (if s.image x y then 1 else 0) = 1 then
    { s with image := upd2 s.image x y true }
  else if s.image x y then
    { s with v_registers := upd s.v_registers 15 1, image := upd2 s.image x y false }
  else
    { s with image := upd2 s.image x y false }

/-- The `for col in 0..=7` loop of `DXYN`, called with `nat_range 0 8`. -/
def draw_sprite_cols (s : CoreState) (x0 y0 row raw_byte : Nat) : List Nat → CoreState
  | [] => s
  | col :: rest =>
    let x := x0 % 64 + col
    let y := y0 % 32 + row
    let pixel_value := raw_byte / 2 ^ (7 - col) % 2
    draw_sprite_cols (draw_pixel s x y pixel_value) x0 y0 row raw_byte rest

/-- The `for row in 0..height` loop of `DXYN`, called with
`nat_range 0 height`; the sprite row fetch
`memory[i_register as usize + row]` panics (`none`) past the array end. -/
def draw_sprite_rows (s : CoreState) (x0 y0 : Nat) : List Nat → Option CoreState
  | [] => some s
  | row :: rest =>
    if s.i_register + row < 4096 then
      let raw_byte := s.memory (s.i_register + row)
      draw_sprite_rows (draw_sprite_cols s x0 y0 row raw_byte (nat_range 0 8)) x0 y0 rest
    else
      none

/-- `0xDXYN` (`Core::execute_opcode_d`): read VX, VY and N, reset VF, then
run the row loop. -/
def execute_opcode_d (s : CoreState) (opcode : Nat) : Option CoreState :=
  let x := s.v_registers (opcode / 256 % 16)
  let y := s.v_registers (opcode / 16 % 16)
  let height := opcode % 16
  draw_sprite_rows { s with v_registers := upd s.v_registers 15 0 }
    x y (nat_range 0 height)

/-- `0xEX__` family (`Core::execute_opcode_e`). -/
def execute_opcode_e (inp : Inputs) (s : CoreState) (opcode : Nat) : CoreState :=
  let lower_byte := opcode % 256
  let x := opcode / 256 % 16
  if lower_byte = 0x9E then
    (if is_key_down inp (s.v_registers x) then skip_opcode s else s)
  else if lower_byte = 0xA1 then
    (if is_key_down inp (s.v_registers x) then s else skip_opcode s)
  else
    core_error s (.invalidOpcode opcode (s.program_counter - 2))

/-- The `for i in 0..=x` loop of `FX55`, called with `nat_range 0 (x+1)`:
write the register, then increment I. -/
def fx55_go (s : CoreState) : List Nat → Option CoreState
  | [] => some s
  | i :: rest =>
    match write_mem s s.i_register (s.v_registers i) with
    | none => none
    | some t => fx55_go { t with i_register := t.i_register + 1 } rest

/-- The `for i in 0..=x` loop of `FX65`, called with `nat_range 0 (x+1)`:
read memory into the register, then increment I. -/
def fx65_go (s : CoreState) : List Nat → Option CoreState
  | [] => some s
  | i :: rest =>
    match read_mem s s.i_register with
    | none => none
    | some v =>
      fx65_go { s with v_registers := upd s.v_registers i v,
                       i_register := s.i_register + 1 } rest

/-- `0xFX__` family (`Core::execute_opcode_f`).  `FX0A` consults the
`waitKey` oracle (`none` models the poll loop never returning); the `u16`
overflow of `FX1E` is modelled as an abort like the other checked panics. -/
def execute_opcode_f (inp : Inputs) (s : CoreState) (opcode : Nat) : Option CoreState :=
  let lower_byte := opcode % 256
  let x := opcode / 256 % 16
  if lower_byte = 0x07 then
    some { s with v_registers := upd s.v_registers x s.delay_timer }
  else if lower_byte = 0x0A then
    match inp.waitKey with
    | some key => some { s with v_registers := upd s.v_registers x (key % 16) }
    | none => none
  else if lower_byte = 0x15 then
    some { s with delay_timer := s.v_registers x }
  else if lower_byte = 0x18 then
    some { s with sound_timer := s.v_registers x }
  else if lower_byte = 0x1E then
    (if s.i_register + s.v_registers x < 65536 then
      some { s with i_register := s.i_register + s.v_registers x }
    else none)
  else if lower_byte = 0x29 then
    some { s with i_register := s.v_registers x * 5 }
  else if lower_byte = 0x33 then
    let vx := s.v_registers x
    match write_mem s s.i_register (vx / 100) with
    | none => none
    | some s1 =>
      match write_mem s1 (s1.i_register + 1) (vx % 100 / 10) with
      | none => none
      | some s2 => write_mem s2 (s2.i_register + 2) (vx % 10)
  else if lower_byte = 0x55 then
    fx55_go s (nat_range 0 (x + 1))
  else if lower_byte = 0x65 then
    fx65_go s (nat_range 0 (x + 1))
  else
    some (core_error s (.invalidOpcode opcode (s.program_counter - 2)))

/-- Dispatch on the high nibble (`Core::execute_opcode` after the fetch).
The source's `unreachable!` default arm is modelled as an abort. -/
def execute_opcode_body (inp : Inputs) (s : CoreState) (opcode : Nat) : Option CoreState :=
  let first_nibble := opcode / 4096 % 16
  if first_nibble = 0x0 then some (execute_opcode_0 s opcode)
  else if first_nibble = 0x1 then some (execute_opcode_1 s opcode)
  else if first_nibble = 0x2 then some (execute_opcode_2 s opcode)
  else if first_nibble = 0x3 then some (execute_opcode_3 s opcode)
  else if first_nibble = 0x4 then some (execute_opcode_4 s opcode)
  else if first_nibble = 0x5 then some (execute_opcode_5 s opcode)
  else if first_nibble = 0x6 then some (execute_opcode_6 s opcode)
  else if first_nibble = 0x7 then some (execute_opcode_7 s opcode)
  else if first_nibble = 0x8 then some (execute_opcode_8 s opcode)
  else if first_nibble = 0x9 then some (execute_opcode_9 s opcode)
  else if first_nibble = 0xA then some (execute_opcode_a s opcode)
  else if first_nibble = 0xB then some (execute_opcode_b s opcode)
  else if first_nibble = 0xC then some (execute_opcode_c inp s opcode)
  else if first_nibble = 0xD then execute_opcode_d s opcode
  else if first_nibble = 0xE then some (execute_opcode_e inp s opcode)
  else if first_nibble = 0xF then execute_opcode_f inp s opcode
  else none

/-- `Core::execute_opcode`: big-endian two-byte fetch via
`read_16bit_immediate` (advancing `program_counter` by 2, panicking past
the array end), then dispatch. -/
def execute_opcode (inp : Inputs) (s : CoreState) : Option CoreState :=
  if s.program_counter + 1 < 4096 then
    execute_opcode_body inp { s with program_counter := s.program_counter + 2 }
      (s.memory s.program_counter * 256 + s.memory (s.program_counter + 1))
  else
    none

/-- `Core::update_timers`. -/
def update_timers (s : CoreState) : CoreState :=
  let s := if 0 < s.delay_timer then { s with delay_timer := s.delay_timer - 1 } else s
  if 0 < s.sound_timer then { s with sound_timer := s.sound_timer - 1 } else s

/-- The instruction batch of `Core::step_frame`: execute `k` opcodes,
checking `should_exit` after each; timers update only when the whole batch
ran.  A panic inside an opcode aborts the thread (`none`). -/
def step_frame_go (inp : Inputs) : Nat → CoreState → Option CoreState
  | 0, s => some (update_timers s)
  | k + 1, s =>
    match execute_opcode inp s with
    | none => none
    | some t => if should_exit t then some t else step_frame_go inp k t

/-- `Core::step_frame`. -/
def do_step_frame (inp : Inputs) (s : CoreState) : Option CoreState :=
  step_frame_go inp s.opcodes_per_frame s

/-- One `Event` handled by `Core::handle_events`. -/
def handle_event (s : CoreState) : Event → CoreState
  | .changeRunning b => { s with running := b }
  | .stepFrame => { s with step_frame := true }
  | .loadRom path name contents => load_game s path name contents
  | .changeOpcodesPerFrame n => { s with opcodes_per_frame := n }
  | .exit => { s with running := false, exit_requested := true }

/-- `Core::handle_events`: drain the queue in FIFO order. -/
def handle_events (s : CoreState) (pending : List Event) : CoreState :=
  pending.foldl handle_event s

/-- One iteration of the `Core::run` loop (timing and sleeping omitted).
`none` means the loop terminated (`return`) or the thread died in a panic;
otherwise the new state is returned together with the number of snapshot
publishes performed at the iteration level (`handle_events` publishes when
it handled at least one event; the post-frame `update_gui` publishes once).
Publishes made inside `core_error` handlers are not counted. -/
def run_iteration (inp : Inputs) (pending : List Event) (s : CoreState) :
    Option (CoreState × Nat) :=
  if should_exit s then none
  else
    let s1 := handle_events s pending
    let pubs := if pending.isEmpty then 0 else 1
    if s1.running || s1.step_frame then
      match do_step_frame inp { s1 with step_frame := false } with
      | none => none
      | some s2 =>
        if should_exit s2 then none
        else some ({ s2 with current_frame := s2.current_frame + 1 }, pubs + 1)
    else
      some (s1, pubs)

/-- States reachable from `a` by executing instructions (any oracle inputs
at each step). -/
inductive Reaches : CoreState → CoreState → Prop where
  | refl (a : CoreState) : Reaches a a
  | tail (a b c : CoreState) (inp : Inputs) :
      Reaches a b → execute_opcode inp b = some c → Reaches a c

/-- Modelled from the spec: the `DXYN` pixel targeting the specification
claims — coordinates `((VX + col) mod width, (VY + row) mod height)`,
wrapping at the edges rather than clipping, the sprite bit XORed in.  Used
to compare the specified draw against the implemented one. -/
def spec_wrap_draw (img : Nat → Nat → Bool) (mem : Nat → Nat) (x0 y0 i n : Nat) :
    Nat → Nat → Bool :=
  (nat_range 0 n).foldl
    (fun acc row =>
      (nat_range 0 8).foldl
        (fun acc2 col =>
          let px := (x0 + col) % 64
          let py := (y0 + row) % 32
          let bit := mem (i + row) / 2 ^ (7 - col) % 2
          upd2 acc2 px py (xor (acc2 px py) (decide (bit = 1))))
        acc)
    img


/-- Default oracle: no keys, random byte 0, no key-wait answer. -/
def inputs0 : Inputs :=
  { randomByte := 0, keysDown := fun _ => false, waitKey := none }

/-- Collision test of one `DXYN` sprite row over the column list: some
visible sprite bit is 1 over a pixel of `img` that is already on. -/
def cols_collision (img : Nat → Nat → Bool) (x0 y0 row raw : Nat) (cols : List Nat) : Bool :=
  cols.any (fun col =>
    decide (x0 % 64 + col < 64) && decide (y0 % 32 + row < 32) &&
    decide (raw / 2 ^ (7 - col) % 2 = 1) && img (x0 % 64 + col) (y0 % 32 + row))

/-- Collision test of a `DXYN` draw over the row list. -/
def rows_collision (img : Nat → Nat → Bool) (mem : Nat → Nat) (x0 y0 i : Nat)
    (rows : List Nat) : Bool :=
  rows.any (fun row => cols_collision img x0 y0 row (mem (i + row)) (nat_range 0 8))

/-- Collision condition of the implemented `DXYN`: some visible sprite bit
is 1 over a pixel that is already on (computable, used to state the draw
characterisation). -/
def dxyn_collision (img : Nat → Nat → Bool) (mem : Nat → Nat) (x0 y0 i n : Nat) : Bool :=
  rows_collision img mem x0 y0 i (nat_range 0 n)

/-- Some sprite bit is 1 at a visible (non-clipped) position. -/
def sprite_visible_bit (mem : Nat → Nat) (x0 y0 i n : Nat) : Bool :=
  (nat_range 0 n).any (fun row =>
    (nat_range 0 8).any (fun col =>
      decide (x0 % 64 + col < 64) && decide (y0 % 32 + row < 32) &&
      decide (mem (i + row) / 2 ^ (7 - col) % 2 = 1)))

/-- The result of the implemented `DXYN` at one pixel, in closed form:
visible target pixels inside the sprite rectangle are XORed with the sprite
bit, all other pixels (including the clipped ones) are untouched. -/
def dxyn_pixel (img : Nat → Nat → Bool) (mem : Nat → Nat) (x0 y0 i n px py : Nat) : Bool :=
  if x0 % 64 ≤ px ∧ px < x0 % 64 + 8 ∧ px < 64 ∧
     y0 % 32 ≤ py ∧ py < y0 % 32 + n ∧ py < 32 then
    xor (img px py)
      (decide (mem (i + (py - y0 % 32)) / 2 ^ (7 - (px - x0 % 64)) % 2 = 1))
  else
    img px py

/-- An errored machine state (scheduler observation, claim C1). -/
def c1_cex_state : CoreState :=
  { initial_state with error := some (.invalidOpcode 0 512) }

/-- `D011` at 512 with `V0 = 63`, `V1 = 0`, sprite byte `0xC0` at 600:
the second sprite column falls past the right edge (claim C2). -/
def c2_cex_state : CoreState :=
  { initial_state with
      memory := copy_into (copy_into initial_state.memory 512 [0xD0, 0x11]) 600 [0xC0]
      v_registers := upd initial_state.v_registers 0 63
      i_register := 600 }

/-- `F055` at 512 with `I = 1000` (claim C4). -/
def c4_cex_state : CoreState :=
  { initial_state with
      memory := copy_into initial_state.memory 512 [0xF0, 0x55]
      i_register := 1000 }

/-- `F065` at 512 with `I = 1000` (claim C4). -/
def c4_wit_state65 : CoreState :=
  { initial_state with
      memory := copy_into initial_state.memory 512 [0xF0, 0x65]
      i_register := 1000 }

/-- `F033` at 512 with `I = 4095`: the second BCD write lands at 4096
(claim C5). -/
def c5_cex_state : CoreState :=
  { initial_state with
      memory := copy_into initial_state.memory 512 [0xF0, 0x33]
      i_register := 4095 }

/-- `F055` at 512 with `I = 4090` and `X = 6` (claim C5). -/
def c5_wit_state55 : CoreState :=
  { initial_state with
      memory := copy_into initial_state.memory 512 [0xF6, 0x55]
      i_register := 4090 }

/-- `F065` at 512 with `I = 4090` and `X = 6` (claim C5). -/
def c5_wit_state65 : CoreState :=
  { initial_state with
      memory := copy_into initial_state.memory 512 [0xF6, 0x65]
      i_register := 4090 }

/-- `D012` at 512 with `I = 4095`: the second sprite row read lands at 4096
(claim C5). -/
def c5_wit_stateD : CoreState :=
  { initial_state with
      memory := copy_into initial_state.memory 512 [0xD0, 0x12]
      i_register := 4095 }

/-- `00EE` at 512 with an empty call stack (claim C7). -/
def c7_wit_state : CoreState :=
  { initial_state with memory := copy_into initial_state.memory 512 [0x00, 0xEE] }

/-- `8F04` at 512 with `VF = 255`, `V0 = 1`: the flag write overwrites the
stored sum (claim C8). -/
def c8_cex_state : CoreState :=
  { initial_state with
      memory := copy_into initial_state.memory 512 [0x8F, 0x04]
      v_registers := upd (upd initial_state.v_registers 15 255) 0 1 }

/-- `8014` at 512 with `V0 = 255`, `V1 = 1` (claim C8). -/
def c8_wit_state_add : CoreState :=
  { initial_state with
      memory := copy_into initial_state.memory 512 [0x80, 0x14]
      v_registers := upd (upd initial_state.v_registers 0 255) 1 1 }

/-- `8015` at 512 with `V0 = 1`, `V1 = 2` (claim C8). -/
def c8_wit_state_sub : CoreState :=
  { initial_state with
      memory := copy_into initial_state.memory 512 [0x80, 0x15]
      v_registers := upd (upd initial_state.v_registers 0 1) 1 2 }

/-- `D001` twice at 512/514 with `I = 1024` pointing at an all-zero sprite
(claim C9). -/
def c9_cex_state : CoreState :=
  { initial_state with
      memory := copy_into initial_state.memory 512 [0xD0, 0x01, 0xD0, 0x01]
      i_register := 1024 }

/-- `D011` twice at 512/514 with `V0 = 5`, `V1 = 7`, sprite byte `0xFF` at
800 (claim C9). -/
def c9_wit_state : CoreState :=
  { initial_state with
      memory := copy_into (copy_into initial_state.memory 512 [0xD0, 0x11, 0xD0, 0x11]) 800 [0xFF]
      v_registers := upd (upd initial_state.v_registers 0 5) 1 7
      i_register := 800 }

/-- `5011` at 512 (low nibble 1 is invalid; `V0 = V1`, claim C10). -/
def c10_wit_state5 : CoreState :=
  { initial_state with memory := copy_into initial_state.memory 512 [0x50, 0x11] }

/-- `9011` at 512 (low nibble 1 is invalid; `V0 = V1`, claim C10). -/
def c10_wit_state9 : CoreState :=
  { initial_state with memory := copy_into initial_state.memory 512 [0x90, 0x11] }

/-- Fields of `CoreState` that the `DXYN` loops never modify (everything
except the framebuffer and VF). -/
def NonDrawEq (s t : CoreState) : Prop :=
  t.memory = s.memory ∧ t.i_register = s.i_register ∧
  t.program_counter = s.program_counter ∧ t.error = s.error ∧
  t.call_stack = s.call_stack ∧ t.current_frame = s.current_frame ∧
  t.running = s.running ∧ t.step_frame = s.step_frame ∧
  t.delay_timer = s.delay_timer ∧ t.sound_timer = s.sound_timer ∧
  t.rom_name = s.rom_name ∧ t.rom_size = s.rom_size ∧
  t.opcodes_per_frame = s.opcodes_per_frame ∧ t.exit_requested = s.exit_requested ∧
  (∀ j, j ≠ 15 → t.v_registers j = s.v_registers j)

theorem upd_at (f : Nat → Nat) (a v : Nat) : upd f a v a = v := by
  simp [upd]

theorem upd_ne (f : Nat → Nat) (a v b : Nat) (h : b ≠ a) : upd f a v b = f b := by
  simp [upd, h]

theorem upd2_at (f : Nat → Nat → Bool) (x y : Nat) (v : Bool) : upd2 f x y v x y = v := by
  simp [upd2]

theorem upd2_ne (f : Nat → Nat → Bool) (x y : Nat) (v : Bool) (a b : Nat)
    (h : ¬(a = x ∧ b = y)) : upd2 f x y v a b = f a b := by
  simp only [upd2, if_neg h]

theorem mem_nat_range (a s l : Nat) : a ∈ nat_range s l ↔ s ≤ a ∧ a < s + l := by
  induction l generalizing s with
  | zero =>
    simp only [nat_range, List.not_mem_nil, false_iff]
    omega
  | succ n ih =>
    simp only [nat_range, List.mem_cons, ih (s + 1)]
    omega

theorem nonDrawEq_rfl (s : CoreState) : NonDrawEq s s := by
  refine ⟨rfl, rfl, rfl, rfl, rfl, rfl, rfl, rfl, rfl, rfl, rfl, rfl, rfl, rfl, ?_⟩
  intro j _
  rfl

theorem nonDrawEq_trans (s t u : CoreState) (h1 : NonDrawEq s t) (h2 : NonDrawEq t u) :
    NonDrawEq s u := by
  obtain ⟨a1, a2, a3, a4, a5, a6, a7, a8, a9, a10, a11, a12, a13, a14, a15⟩ := h1
  obtain ⟨b1, b2, b3, b4, b5, b6, b7, b8, b9, b10, b11, b12, b13, b14, b15⟩ := h2
  exact ⟨b1.trans a1, b2.trans a2, b3.trans a3, b4.trans a4, b5.trans a5, b6.trans a6,
    b7.trans a7, b8.trans a8, b9.trans a9, b10.trans a10, b11.trans a11, b12.trans a12,
    b13.trans a13, b14.trans a14, fun j hj => (b15 j hj).trans (a15 j hj)⟩

theorem draw_pixel_nondraw (s : CoreState) (x y b : Nat) :
    NonDrawEq s (draw_pixel s x y b) := by
  unfold draw_pixel NonDrawEq
  repeat' split
  all_goals
    refine ⟨rfl, rfl, rfl, rfl, rfl, rfl, rfl, rfl, rfl, rfl, rfl, rfl, rfl, rfl,
      fun j hj => ?_⟩
  all_goals
    first
      | rfl
      | exact upd_ne _ _ _ _ hj

theorem draw_pixel_image (s : CoreState) (x y b : Nat) (hb : b < 2) (px py : Nat) :
    (draw_pixel s x y b).image px py =
      if px = x ∧ py = y ∧ x < 64 ∧ y < 32 then
        xor (s.image px py) (decide (b = 1))
      else
        s.image px py := by
  have hb01 : b = 0 ∨ b = 1 := by omega
  unfold draw_pixel
  by_cases hin : 64 - 1 < x ∨ 32 - 1 < y
  · rw [if_pos hin]
    have : ¬(px = x ∧ py = y ∧ x < 64 ∧ y < 32) := by omega
    rw [if_neg this]
  · rw [if_neg hin]
    by_cases hp : px = x ∧ py = y
    · obtain ⟨hpx, hpy⟩ := hp
      subst hpx hpy
      have hcond : px = px ∧ py = py ∧ px < 64 ∧ py < 32 := by omega
      rw [if_pos hcond]
      rcases hb01 with hb0 | hb1
      · subst hb0
        cases him : s.image px py <;> simp [him, upd2_at]
      · subst hb1
        cases him : s.image px py <;> simp [him, upd2_at]
    · have hcond : ¬(px = x ∧ py = y ∧ x < 64 ∧ y < 32) := by tauto
      rw [if_neg hcond]
      rcases hb01 with hb0 | hb1 <;> subst_vars <;>
        cases him : s.image x y <;>
          simp [him, upd2_ne _ _ _ _ _ _ hp]

theorem draw_pixel_v15 (s : CoreState) (x y b : Nat) (hb : b < 2) :
    (draw_pixel s x y b).v_registers 15 =
      if x < 64 ∧ y < 32 ∧ b = 1 ∧ s.image x y = true then 1 else s.v_registers 15 := by
  have hb01 : b = 0 ∨ b = 1 := by omega
  unfold draw_pixel
  by_cases hin : 64 - 1 < x ∨ 32 - 1 < y
  · rw [if_pos hin]
    have : ¬(x < 64 ∧ y < 32 ∧ b = 1 ∧ s.image x y = true) := by omega
    rw [if_neg this]
  · rw [if_neg hin]
    have hx : x < 64 := by omega
    have hy : y < 32 := by omega
    rcases hb01 with hb0 | hb1 <;> subst_vars <;>
      cases him : s.image x y <;>
        simp [him, hx, hy, upd_at]

theorem nat_range_succ (s l : Nat) : nat_range s (l + 1) = s :: nat_range (s + 1) l := rfl

theorem list_any_congr (p q : Nat → Bool) (l : List Nat) (h : ∀ a ∈ l, p a = q a) :
    l.any p = l.any q := by
  induction l with
  | nil => rfl
  | cons a t ih =>
    simp only [List.any_cons, h a (List.mem_cons_self a t),
      ih fun b hb => h b (List.mem_cons_of_mem a hb)]

theorem draw_cols_spec (x0 y0 row raw : Nat) :
    ∀ (m c : Nat) (s : CoreState),
      (∀ px py,
        (draw_sprite_cols s x0 y0 row raw (nat_range c m)).image px py =
          if x0 % 64 + c ≤ px ∧ px < x0 % 64 + c + m ∧ px < 64 ∧
             py = y0 % 32 + row ∧ py < 32 then
            xor (s.image px py) (decide (raw / 2 ^ (7 - (px - x0 % 64)) % 2 = 1))
          else s.image px py) ∧
      ((draw_sprite_cols s x0 y0 row raw (nat_range c m)).v_registers 15 =
        if cols_collision s.image x0 y0 row raw (nat_range c m) then 1
        else s.v_registers 15) ∧
      NonDrawEq s (draw_sprite_cols s x0 y0 row raw (nat_range c m)) := by
  intro m
  induction m with
  | zero =>
    intro c s
    refine ⟨?_, ?_, nonDrawEq_rfl s⟩
    · intro px py
      have h : ¬(x0 % 64 + c ≤ px ∧ px < x0 % 64 + c + 0 ∧ px < 64 ∧
          py = y0 % 32 + row ∧ py < 32) := by omega
      rw [if_neg h]
      rfl
    · simp [nat_range, cols_collision, draw_sprite_cols]
  | succ m ih =>
    intro c s
    rw [nat_range_succ]
    have hb : raw / 2 ^ (7 - c) % 2 < 2 := Nat.mod_lt _ (by norm_num)
    set X := x0 % 64 + c with hX
    set Y := y0 % 32 + row with hY
    set B := raw / 2 ^ (7 - c) % 2 with hB
    set s1 := draw_pixel s X Y B with hs1
    have hstep : draw_sprite_cols s x0 y0 row raw (c :: nat_range (c + 1) m) =
        draw_sprite_cols s1 x0 y0 row raw (nat_range (c + 1) m) := rfl
    rw [hstep]
    obtain ⟨ihImg, ihV, ihND⟩ := ih (c + 1) s1
    have hndp : NonDrawEq s s1 := draw_pixel_nondraw s X Y B
    have hs1img : ∀ px py, s1.image px py =
        if px = X ∧ py = Y ∧ X < 64 ∧ Y < 32 then
          xor (s.image px py) (decide (B = 1))
        else s.image px py := draw_pixel_image s X Y B hb
    have hs1v : s1.v_registers 15 =
        if X < 64 ∧ Y < 32 ∧ B = 1 ∧ s.image X Y = true then 1
        else s.v_registers 15 := draw_pixel_v15 s X Y B hb
    refine ⟨?_, ?_, nonDrawEq_trans s s1 _ hndp ihND⟩
    · intro px py
      rw [ihImg px py]
      by_cases htc : x0 % 64 + c ≤ px ∧ px < x0 % 64 + c + (m + 1) ∧ px < 64 ∧
          py = y0 % 32 + row ∧ py < 32
      · rw [if_pos htc]
        by_cases hpx : px = X
        · have hni : ¬(x0 % 64 + (c + 1) ≤ px ∧ px < x0 % 64 + (c + 1) + m ∧ px < 64 ∧
              py = y0 % 32 + row ∧ py < 32) := by omega
          rw [if_neg hni, hs1img px py]
          have hp : px = X ∧ py = Y ∧ X < 64 ∧ Y < 32 := by
            refine ⟨hpx, ?_, ?_, ?_⟩ <;> omega
          rw [if_pos hp]
          have hcol : px - x0 % 64 = c := by omega
          rw [hcol]
        · have hii : x0 % 64 + (c + 1) ≤ px ∧ px < x0 % 64 + (c + 1) + m ∧ px < 64 ∧
              py = y0 % 32 + row ∧ py < 32 := by
            refine ⟨?_, ?_, ?_, ?_, ?_⟩ <;> omega
          rw [if_pos hii, hs1img px py]
          have hp : ¬(px = X ∧ py = Y ∧ X < 64 ∧ Y < 32) := by tauto
          rw [if_neg hp]
      · rw [if_neg htc]
        have hni : ¬(x0 % 64 + (c + 1) ≤ px ∧ px < x0 % 64 + (c + 1) + m ∧ px < 64 ∧
            py = y0 % 32 + row ∧ py < 32) := by omega
        rw [if_neg hni, hs1img px py]
        have hp : ¬(px = X ∧ py = Y ∧ X < 64 ∧ Y < 32) := by
          rintro ⟨h1, h2, h3, h4⟩
          exact htc (by omega)
        rw [if_neg hp]
    · rw [ihV]
      have hcc : cols_collision s.image x0 y0 row raw (c :: nat_range (c + 1) m) =
          ((decide (X < 64) && decide (Y < 32) && decide (B = 1) && s.image X Y) ||
            cols_collision s.image x0 y0 row raw (nat_range (c + 1) m)) := by
        simp [cols_collision]
      have hcc1 : cols_collision s1.image x0 y0 row raw (nat_range (c + 1) m) =
          cols_collision s.image x0 y0 row raw (nat_range (c + 1) m) := by
        unfold cols_collision
        apply list_any_congr
        intro col hcol
        have hc1 : c + 1 ≤ col := ((mem_nat_range col (c + 1) m).mp hcol).1
        have himg : s1.image (x0 % 64 + col) (y0 % 32 + row) =
            s.image (x0 % 64 + col) (y0 % 32 + row) := by
          rw [hs1img]
          have : ¬(x0 % 64 + col = X ∧ y0 % 32 + row = Y ∧ X < 64 ∧ Y < 32) := by
            rintro ⟨h1, _⟩
            omega
          rw [if_neg this]
        rw [himg]
      rw [hcc, hcc1, hs1v]
      by_cases hrest : cols_collision s.image x0 y0 row raw (nat_range (c + 1) m) = true
      · simp [hrest]
      · by_cases hfst : X < 64 ∧ Y < 32 ∧ B = 1 ∧ s.image X Y = true
        · obtain ⟨f1, f2, f3, f4⟩ := hfst
          simp [f1, f2, f3, f4]
        · rw [if_neg hfst]
          have hx1 : (decide (X < 64) && decide (Y < 32) && decide (B = 1) && s.image X Y)
              = false := by
            by_cases g1 : X < 64 <;> by_cases g2 : Y < 32 <;> by_cases g3 : B = 1 <;>
              by_cases g4 : s.image X Y = true <;>
                simp [g1, g2, g3, g4] <;> tauto
          rw [hx1]
          simp only [Bool.false_or]

theorem cols_collision_congr (img1 img2 : Nat → Nat → Bool) (x0 y0 row raw : Nat)
    (cols : List Nat)
    (h : ∀ col ∈ cols, img1 (x0 % 64 + col) (y0 % 32 + row) =
      img2 (x0 % 64 + col) (y0 % 32 + row)) :
    cols_collision img1 x0 y0 row raw cols = cols_collision img2 x0 y0 row raw cols := by
  unfold cols_collision
  apply list_any_congr
  intro col hcol
  rw [h col hcol]

theorem draw_rows_spec (x0 y0 : Nat) :
    ∀ (m r : Nat) (s : CoreState), s.i_register + r + m ≤ 4096 →
      ∃ t, draw_sprite_rows s x0 y0 (nat_range r m) = some t ∧
        (∀ px py, t.image px py =
          if x0 % 64 ≤ px ∧ px < x0 % 64 + 8 ∧ px < 64 ∧
             y0 % 32 + r ≤ py ∧ py < y0 % 32 + r + m ∧ py < 32 then
            xor (s.image px py)
              (decide (s.memory (s.i_register + (py - y0 % 32)) /
                2 ^ (7 - (px - x0 % 64)) % 2 = 1))
          else s.image px py) ∧
        (t.v_registers 15 =
          if rows_collision s.image s.memory x0 y0 s.i_register (nat_range r m) then 1
          else s.v_registers 15) ∧
        NonDrawEq s t := by
  intro m
  induction m with
  | zero =>
    intro r s _
    refine ⟨s, rfl, ?_, ?_, nonDrawEq_rfl s⟩
    · intro px py
      have h : ¬(x0 % 64 ≤ px ∧ px < x0 % 64 + 8 ∧ px < 64 ∧
          y0 % 32 + r ≤ py ∧ py < y0 % 32 + r + 0 ∧ py < 32) := by omega
      rw [if_neg h]
    · simp [nat_range, rows_collision]
  | succ m ih =>
    intro r s hbound
    rw [nat_range_succ]
    have hguard : s.i_register + r < 4096 := by omega
    set raw := s.memory (s.i_register + r) with hraw
    set s1 := draw_sprite_cols s x0 y0 r raw (nat_range 0 8) with hs1
    have hstep : draw_sprite_rows s x0 y0 (r :: nat_range (r + 1) m) =
        draw_sprite_rows s1 x0 y0 (nat_range (r + 1) m) := by
      simp only [draw_sprite_rows]
      rw [if_pos hguard]
    obtain ⟨cImg, cV, cND⟩ := draw_cols_spec x0 y0 r raw 8 0 s
    rw [← hs1] at cImg cV cND
    have cmem := cND.1
    have cireg := cND.2.1
    obtain ⟨t, ht, ihImg, ihV, ihND⟩ := ih (r + 1) s1 (by rw [cireg]; omega)
    refine ⟨t, by rw [hstep, ht], ?_, ?_, nonDrawEq_trans s s1 t cND ihND⟩
    · intro px py
      rw [ihImg px py, cmem, cireg]
      by_cases hrow : py = y0 % 32 + r
      · have hni : ¬(x0 % 64 ≤ px ∧ px < x0 % 64 + 8 ∧ px < 64 ∧
            y0 % 32 + (r + 1) ≤ py ∧ py < y0 % 32 + (r + 1) + m ∧ py < 32) := by omega
        rw [if_neg hni, cImg px py]
        by_cases hxc : x0 % 64 + 0 ≤ px ∧ px < x0 % 64 + 0 + 8 ∧ px < 64 ∧
            py = y0 % 32 + r ∧ py < 32
        · rw [if_pos hxc]
          have htc : x0 % 64 ≤ px ∧ px < x0 % 64 + 8 ∧ px < 64 ∧
              y0 % 32 + r ≤ py ∧ py < y0 % 32 + r + (m + 1) ∧ py < 32 := by omega
          rw [if_pos htc]
          have : py - y0 % 32 = r := by omega
          rw [this]
        · rw [if_neg hxc]
          have htc : ¬(x0 % 64 ≤ px ∧ px < x0 % 64 + 8 ∧ px < 64 ∧
              y0 % 32 + r ≤ py ∧ py < y0 % 32 + r + (m + 1) ∧ py < 32) := by omega
          rw [if_neg htc]
      · have hs1i : s1.image px py = s.image px py := by
          rw [cImg px py]
          have : ¬(x0 % 64 + 0 ≤ px ∧ px < x0 % 64 + 0 + 8 ∧ px < 64 ∧
              py = y0 % 32 + r ∧ py < 32) := by omega
          rw [if_neg this]
        rw [hs1i]
        by_cases hic : x0 % 64 ≤ px ∧ px < x0 % 64 + 8 ∧ px < 64 ∧
            y0 % 32 + (r + 1) ≤ py ∧ py < y0 % 32 + (r + 1) + m ∧ py < 32
        · rw [if_pos hic]
          have htc : x0 % 64 ≤ px ∧ px < x0 % 64 + 8 ∧ px < 64 ∧
              y0 % 32 + r ≤ py ∧ py < y0 % 32 + r + (m + 1) ∧ py < 32 := by omega
          rw [if_pos htc]
        · rw [if_neg hic]
          have htc : ¬(x0 % 64 ≤ px ∧ px < x0 % 64 + 8 ∧ px < 64 ∧
              y0 % 32 + r ≤ py ∧ py < y0 % 32 + r + (m + 1) ∧ py < 32) := by omega
          rw [if_neg htc]
    · rw [ihV]
      have hrc1 : rows_collision s1.image s1.memory x0 y0 s1.i_register
          (nat_range (r + 1) m) =
          rows_collision s.image s.memory x0 y0 s.i_register (nat_range (r + 1) m) := by
        rw [cmem, cireg]
        unfold rows_collision
        apply list_any_congr
        intro row hrow
        have hr1 : r + 1 ≤ row := ((mem_nat_range row (r + 1) m).mp hrow).1
        apply cols_collision_congr
        intro col _
        rw [cImg]
        have : ¬(x0 % 64 + 0 ≤ x0 % 64 + col ∧ x0 % 64 + col < x0 % 64 + 0 + 8 ∧
            x0 % 64 + col < 64 ∧ y0 % 32 + row = y0 % 32 + r ∧ y0 % 32 + row < 32) := by
          omega
        rw [if_neg this]
      have hrcons : rows_collision s.image s.memory x0 y0 s.i_register
          (r :: nat_range (r + 1) m) =
          (cols_collision s.image x0 y0 r (s.memory (s.i_register + r)) (nat_range 0 8) ||
            rows_collision s.image s.memory x0 y0 s.i_register (nat_range (r + 1) m)) := by
        simp [rows_collision]
      rw [hrc1, cV, hrcons]
      by_cases hrest : rows_collision s.image s.memory x0 y0 s.i_register
          (nat_range (r + 1) m) = true
      · simp [hrest]
      · by_cases hfst : cols_collision s.image x0 y0 r raw (nat_range 0 8) = true
        · rw [if_pos hfst]
          rw [hraw] at hfst
          simp [hfst]
        · rw [if_neg hfst]
          simp only [Bool.not_eq_true] at hrest hfst
          rw [hraw] at hfst
          rw [hrest, hfst]
          simp

theorem execute_dxyn_spec (s : CoreState) (inp : Inputs) (x y n : Nat)
    (hx : x < 16) (hy : y < 16) (hn : n < 16)
    (hpc : s.program_counter + 1 < 4096)
    (hb0 : s.memory s.program_counter = 0xD0 + x)
    (hb1 : s.memory (s.program_counter + 1) = 16 * y + n)
    (hi : s.i_register + n ≤ 4096) :
    ∃ t, execute_opcode inp s = some t ∧
      (∀ px py, t.image px py =
        dxyn_pixel s.image s.memory (s.v_registers x) (s.v_registers y)
          s.i_register n px py) ∧
      (t.v_registers 15 =
        if dxyn_collision s.image s.memory (s.v_registers x) (s.v_registers y)
            s.i_register n then 1 else 0) ∧
      (∀ j, j ≠ 15 → t.v_registers j = s.v_registers j) ∧
      t.memory = s.memory ∧ t.i_register = s.i_register ∧
      t.program_counter = s.program_counter + 2 ∧ t.error = s.error ∧
      t.call_stack = s.call_stack := by
  have h13 : ((0xD0 + x) * 256 + (16 * y + n)) / 4096 % 16 = 13 := by omega
  have hxr : ((0xD0 + x) * 256 + (16 * y + n)) / 256 % 16 = x := by omega
  have hyr : ((0xD0 + x) * 256 + (16 * y + n)) / 16 % 16 = y := by omega
  have hnr : ((0xD0 + x) * 256 + (16 * y + n)) % 16 = n := by omega
  unfold execute_opcode
  rw [if_pos hpc, hb0, hb1]
  unfold execute_opcode_body
  rw [h13]
  norm_num
  unfold execute_opcode_d
  rw [hxr, hyr, hnr]
  dsimp only
  set s2 : CoreState :=
    { s with program_counter := s.program_counter + 2,
             v_registers := upd s.v_registers 15 0 } with hs2
  have hrows := draw_rows_spec (s.v_registers x) (s.v_registers y) n 0 s2 (by
    show s.i_register + 0 + n ≤ 4096
    omega)
  obtain ⟨t, ht, hImg, hV, hND⟩ := hrows
  refine ⟨t, ht, ?_, ?_, ?_, ?_, ?_, ?_, ?_, ?_⟩
  · intro px py
    rw [hImg px py]
    unfold dxyn_pixel
    apply if_congr _ rfl rfl
    constructor
    · intro h
      refine ⟨h.1, h.2.1, h.2.2.1, ?_, ?_, h.2.2.2.2.2⟩ <;> omega
    · intro h
      refine ⟨h.1, h.2.1, h.2.2.1, ?_, ?_, h.2.2.2.2.2⟩ <;> omega
  · rw [hV]
    have hv15 : s2.v_registers 15 = 0 := by
      show upd s.v_registers 15 0 15 = 0
      exact upd_at _ _ _
    rw [hv15]
    rfl
  · intro j hj
    rw [hND.2.2.2.2.2.2.2.2.2.2.2.2.2.2 j hj]
    show upd s.v_registers 15 0 j = s.v_registers j
    exact upd_ne _ _ _ _ hj
  · exact hND.1
  · exact hND.2.1
  · exact hND.2.2.1
  · exact hND.2.2.2.1
  · exact hND.2.2.2.2.1

/-- C2, corrected.  The spec claims the `DXYN` target coordinates wrap:
`((VX + col) mod width, (VY + row) mod height)`.  The code instead reduces
only the base coordinates (`VX mod 64`, `VY mod 32`) and then clips: a
pixel whose coordinate `(VX mod 64) + col` or `(VY mod 32) + row` runs past
the screen edge is skipped.  Amended statement: every target pixel is
`((VX mod 64) + col, (VY mod 32) + row)`, out-of-screen targets are skipped
(clip, not wrap), the sprite bit is XORed into each visible target
(`dxyn_pixel`), VF is reset at entry, and VF ends 1 iff some pixel
transitions on→off (`dxyn_collision`); memory, I, and the other registers
are unmodified and the PC advances only by the fetch. -/
theorem c2_dxyn_clip_draw (s : CoreState) (inp : Inputs) (x y n : Nat)
    (hx : x < 16) (hy : y < 16) (hn : n < 16)
    (hpc : s.program_counter + 1 < 4096)
    (hb0 : s.memory s.program_counter = 0xD0 + x)
    (hb1 : s.memory (s.program_counter + 1) = 16 * y + n)
    (hi : s.i_register + n ≤ 4096) :
    ((execute_opcode inp s).map (fun t => t.image) =
      some (fun px py => dxyn_pixel s.image s.memory (s.v_registers x)
        (s.v_registers y) s.i_register n px py)) ∧
    ((execute_opcode inp s).map (fun t => t.v_registers 15) =
      some (if dxyn_collision s.image s.memory (s.v_registers x) (s.v_registers y)
          s.i_register n then 1 else 0)) ∧
    (∀ j, j ≠ 15 → (execute_opcode inp s).map (fun t => t.v_registers j) =
      some (s.v_registers j)) ∧
    ((execute_opcode inp s).map (fun t => t.memory) = some s.memory) ∧
    ((execute_opcode inp s).map (fun t => t.i_register) = some s.i_register) ∧
    ((execute_opcode inp s).map (fun t => t.program_counter) =
      some (s.program_counter + 2)) ∧
    ((execute_opcode inp s).map (fun t => t.error) = some s.error) := by
  obtain ⟨t, ht, hImg, hV, hVj, hmem, hireg, hpc2, herr, _⟩ :=
    execute_dxyn_spec s inp x y n hx hy hn hpc hb0 hb1 hi
  rw [ht]
  refine ⟨?_, ?_, ?_, ?_, ?_, ?_, ?_⟩
  · simp only [Option.map_some']
    congr 1
    funext px py
    exact hImg px py
  · simp only [Option.map_some', hV]
  · intro j hj
    simp only [Option.map_some', hVj j hj]
  · simp only [Option.map_some', hmem]
  · simp only [Option.map_some', hireg]
  · simp only [Option.map_some', hpc2]
  · simp only [Option.map_some', herr]

/-- C2 witness: the amended characterisation applied to the concrete state
`c2_cex_state` (`D011`, `V0 = 63`, `V1 = 0`, sprite `0xC0` at `I = 600`). -/
theorem c2_dxyn_clip_draw_witness :
    ((execute_opcode inputs0 c2_cex_state).map (fun t => t.image) =
      some (fun px py => dxyn_pixel c2_cex_state.image c2_cex_state.memory
        (c2_cex_state.v_registers 0) (c2_cex_state.v_registers 1)
        c2_cex_state.i_register 1 px py)) ∧
    ((execute_opcode inputs0 c2_cex_state).map (fun t => t.v_registers 15) =
      some (if dxyn_collision c2_cex_state.image c2_cex_state.memory
          (c2_cex_state.v_registers 0) (c2_cex_state.v_registers 1)
          c2_cex_state.i_register 1 then 1 else 0)) := by
  obtain ⟨h1, h2, _⟩ := c2_dxyn_clip_draw c2_cex_state inputs0 0 1 1
    (by decide) (by decide) (by decide) (by decide) (by decide) (by decide) (by decide)
  exact ⟨h1, h2⟩

/-- C2 counterexample: drawing `D011` with `V0 = 63` and sprite byte `0xC0`
(bits in columns 0 and 1).  The claimed wrap semantics (`spec_wrap_draw`,
modelled from the spec's words) turns pixel `(0, 0)` on because
`(63 + 1) mod 64 = 0`; the code clips instead and leaves `(0, 0)` off,
turning only `(63, 0)` on.  The second conjunct refutes the claim's
prediction for pixel `(0, 0)`. -/
theorem c2_dxyn_clip_draw_cex :
    ((execute_opcode inputs0 c2_cex_state).map (fun t => (t.image 0 0, t.image 63 0)) =
      some (false, true)) ∧
    (spec_wrap_draw c2_cex_state.image c2_cex_state.memory 63 0 600 1 0 0 = true) ∧
    (((execute_opcode inputs0 c2_cex_state).map (fun t => t.image 0 0) = some true)
      = False) :=
  ⟨by decide, by decide, eq_false (by decide)⟩

theorem dxyn_collision_blank (img : Nat → Nat → Bool) (mem : Nat → Nat)
    (x0 y0 i n : Nat) (hblank : ∀ a b, img a b = false) :
    dxyn_collision img mem x0 y0 i n = false := by
  unfold dxyn_collision rows_collision cols_collision
  simp [List.any_eq_false, hblank]

theorem dxyn_collision_after_blank (img0 img1 : Nat → Nat → Bool) (mem : Nat → Nat)
    (x0 y0 i n : Nat) (hn : n ≤ 32)
    (himg : ∀ px py, img1 px py = dxyn_pixel img0 mem x0 y0 i n px py)
    (hblank : ∀ a b, img0 a b = false) :
    dxyn_collision img1 mem x0 y0 i n = sprite_visible_bit mem x0 y0 i n := by
  unfold dxyn_collision rows_collision cols_collision sprite_visible_bit
  apply list_any_congr
  intro row hrow
  have hrown : row < n := by
    have := (mem_nat_range row 0 n).mp hrow
    omega
  apply list_any_congr
  intro col hcol
  have hcol8 : col < 8 := by
    have := (mem_nat_range col 0 8).mp hcol
    omega
  by_cases g1 : x0 % 64 + col < 64
  · by_cases g2 : y0 % 32 + row < 32
    · have hpix : img1 (x0 % 64 + col) (y0 % 32 + row) =
          decide (mem (i + row) / 2 ^ (7 - col) % 2 = 1) := by
        rw [himg]
        unfold dxyn_pixel
        have hc : x0 % 64 ≤ x0 % 64 + col ∧ x0 % 64 + col < x0 % 64 + 8 ∧
            x0 % 64 + col < 64 ∧ y0 % 32 ≤ y0 % 32 + row ∧
            y0 % 32 + row < y0 % 32 + n ∧ y0 % 32 + row < 32 := by omega
        rw [if_pos hc, hblank]
        have hpx : x0 % 64 + col - x0 % 64 = col := by omega
        have hpy : y0 % 32 + row - y0 % 32 = row := by omega
        rw [hpx, hpy, Bool.false_xor]
      rw [hpix]
      by_cases g3 : mem (i + row) / 2 ^ (7 - col) % 2 = 1 <;> simp [g1, g2, g3]
    · simp [g2]
  · simp [g1]

/-- C9, corrected.  Drawing the same `DXYN` sprite twice with memory, VX and
VY unchanged (here guaranteed by `X ≠ 15`, `Y ≠ 15`; the collision flag VF
is the only register a draw writes) restores every pixel, and on a blank
framebuffer the first draw reports VF = 0; but the second draw reports
VF = 1 only when the sprite actually has a set bit at a visible position
(`sprite_visible_bit`) — an all-zero or fully clipped sprite leaves VF = 0,
so the claim's unconditional "second draw reports VF = 1" had to be amended
to that condition. -/
theorem c9_draw_twice (s : CoreState) (inp : Inputs) (x y n : Nat)
    (hx : x < 16) (hy : y < 16) (hn : n < 16) (hx15 : x ≠ 15) (hy15 : y ≠ 15)
    (hpc : s.program_counter + 3 < 4096)
    (hb0 : s.memory s.program_counter = 0xD0 + x)
    (hb1 : s.memory (s.program_counter + 1) = 16 * y + n)
    (hb2 : s.memory (s.program_counter + 2) = 0xD0 + x)
    (hb3 : s.memory (s.program_counter + 3) = 16 * y + n)
    (hi : s.i_register + n ≤ 4096) :
    (((execute_opcode inp s).bind (execute_opcode inp)).map (fun t => t.image) =
      some s.image) ∧
    ((∀ a b, s.image a b = false) →
      ((execute_opcode inp s).map (fun t => t.v_registers 15) = some 0) ∧
      (((execute_opcode inp s).bind (execute_opcode inp)).map (fun t => t.v_registers 15) =
        some (if sprite_visible_bit s.memory (s.v_registers x) (s.v_registers y)
            s.i_register n then 1 else 0))) := by
  obtain ⟨t1, ht1, hImg1, hV1, hVj1, hmem1, hireg1, hpc1, herr1, hcs1⟩ :=
    execute_dxyn_spec s inp x y n hx hy hn (by omega) hb0 hb1 hi
  have hb0t : t1.memory t1.program_counter = 0xD0 + x := by
    rw [hmem1, hpc1]
    exact hb2
  have hb1t : t1.memory (t1.program_counter + 1) = 16 * y + n := by
    rw [hmem1, hpc1]
    exact hb3
  obtain ⟨t2, ht2, hImg2, hV2, hVj2, hmem2, hireg2, hpc2t, herr2, hcs2⟩ :=
    execute_dxyn_spec t1 inp x y n hx hy hn (by rw [hpc1]; omega) hb0t hb1t
      (by rw [hireg1]; omega)
  have hvx : t1.v_registers x = s.v_registers x := hVj1 x hx15
  have hvy : t1.v_registers y = s.v_registers y := hVj1 y hy15
  have hbind : (execute_opcode inp s).bind (execute_opcode inp) = some t2 := by
    rw [ht1]
    simpa using ht2
  constructor
  · rw [hbind]
    simp only [Option.map_some']
    congr 1
    funext px py
    rw [hImg2 px py, hvx, hvy, hmem1, hireg1]
    unfold dxyn_pixel
    by_cases hc : s.v_registers x % 64 ≤ px ∧ px < s.v_registers x % 64 + 8 ∧
        px < 64 ∧ s.v_registers y % 32 ≤ py ∧ py < s.v_registers y % 32 + n ∧ py < 32
    · rw [if_pos hc, hImg1 px py]
      unfold dxyn_pixel
      rw [if_pos hc, Bool.xor_assoc, Bool.xor_self, Bool.xor_false]
    · rw [if_neg hc, hImg1 px py]
      unfold dxyn_pixel
      rw [if_neg hc]
  · intro hblank
    constructor
    · rw [ht1]
      simp only [Option.map_some', hV1]
      rw [dxyn_collision_blank _ _ _ _ _ _ hblank]
      simp
    · rw [hbind]
      simp only [Option.map_some', hV2, hvx, hvy, hmem1, hireg1]
      have hcoll : dxyn_collision t1.image s.memory (s.v_registers x)
          (s.v_registers y) s.i_register n =
          sprite_visible_bit s.memory (s.v_registers x) (s.v_registers y)
            s.i_register n := by
        apply dxyn_collision_after_blank s.image t1.image s.memory _ _ _ _ (by omega)
          _ hblank
        intro px py
        rw [hImg1 px py]
      rw [hcoll]

/-- C9 witness: the amended statement applied to `c9_wit_state` (`D011`
twice, `V0 = 5`, `V1 = 7`, sprite byte `0xFF` at `I = 800`, blank
framebuffer): the double draw restores the image, the first draw reports
VF = 0 and the second VF = 1 (the sprite has visible set bits). -/
theorem c9_draw_twice_witness :
    (((execute_opcode inputs0 c9_wit_state).bind (execute_opcode inputs0)).map
      (fun t => t.image) = some c9_wit_state.image) ∧
    ((execute_opcode inputs0 c9_wit_state).map (fun t => t.v_registers 15) = some 0) ∧
    (((execute_opcode inputs0 c9_wit_state).bind (execute_opcode inputs0)).map
      (fun t => t.v_registers 15) =
      some (if sprite_visible_bit c9_wit_state.memory (c9_wit_state.v_registers 0)
          (c9_wit_state.v_registers 1) c9_wit_state.i_register 1 then 1 else 0)) := by
  obtain ⟨h1, h2⟩ := c9_draw_twice c9_wit_state inputs0 0 1 1
    (by decide) (by decide) (by decide) (by decide) (by decide) (by decide)
    (by decide) (by decide) (by decide) (by decide) (by decide)
  obtain ⟨h2a, h2b⟩ := h2 (fun _ _ => rfl)
  exact ⟨h1, h2a, h2b⟩

/-- C9 counterexample: `D001` (height 1, sprite byte 0 at `I = 1024`) drawn
twice on a blank framebuffer.  The claim predicts the second draw reports
VF = 1; the code reports VF = 0 because no pixel was turned on by the first
draw.  The second conjunct refutes the claim's prediction. -/
theorem c9_draw_twice_cex :
    (((execute_opcode inputs0 c9_cex_state).bind (execute_opcode inputs0)).map
      (fun t => t.v_registers 15) = some 0) ∧
    ((((execute_opcode inputs0 c9_cex_state).bind (execute_opcode inputs0)).map
      (fun t => t.v_registers 15) = some 1) = False) :=
  ⟨by decide, eq_false (by decide)⟩

/-- C1, corrected.  The spec claims that once `error` is set the scheduler
keeps running an idle tick — still draining commands (so `Exit` is still
accepted) and publishing snapshots.  In the code, `Core::run` checks
`should_exit` (which is true whenever `error` is set) at the top of every
iteration and returns, terminating the loop: no further commands are
drained and no further snapshots are published (the error snapshot was
published once by `core_error` itself).  Amended statement: whenever
`error` is set, the next scheduler iteration terminates the loop without
draining commands or publishing. -/
theorem c1_error_terminates_loop (s : CoreState) (inp : Inputs) (pending : List Event)
    (h : s.error.isSome = true) :
    run_iteration inp pending s = none := by
  unfold run_iteration
  have hse : should_exit s = true := by
    unfold should_exit
    rw [h]
    rfl
  rw [hse]
  rfl

/-- C1 witness: an errored state with a pending `ChangeRunning` command —
the iteration terminates instead of servicing it. -/
theorem c1_error_terminates_loop_witness :
    run_iteration inputs0 [Event.changeRunning true] c1_cex_state = none :=
  c1_error_terminates_loop c1_cex_state inputs0 [Event.changeRunning true] (by decide)

/-- C1 counterexample: with `error` set and an `Exit` command pending, the
claim predicts the iteration still drains the command and publishes a
snapshot (a `some` result with a positive publish count); the code's
iteration instead returns `none` (the loop terminates, the command is never
received).  The second conjunct refutes the claimed behaviour. -/
theorem c1_error_terminates_loop_cex :
    (run_iteration inputs0 [Event.exit] c1_cex_state = none) ∧
    ((run_iteration inputs0 [Event.exit] c1_cex_state =
      some (handle_events c1_cex_state [Event.exit], 1)) = False) :=
  ⟨by rfl, eq_false (by intro h; simp [run_iteration, should_exit, c1_cex_state,
    initial_state, load_font, CoreState.new] at h)⟩

/-- C3, corrected.  For a ROM longer than 3584 bytes, `load_game` raises
`RomTooLarge{path, size, allowed := 3584}` and leaves memory unchanged —
but it records `rom_name` and `rom_size` *before* the size check, so those
two fields are mutated to the rejected ROM's metadata, contrary to the
claim that they stay at their pre-load values. -/
theorem c3_rom_too_large (s : CoreState) (path name : String) (rom : List Nat)
    (h : rom.length > 3584) :
    ((load_game s path name (.ok rom)).error =
      some (.romTooLarge path rom.length 3584)) ∧
    ((load_game s path name (.ok rom)).memory = s.memory) ∧
    ((load_game s path name (.ok rom)).rom_name = some name) ∧
    ((load_game s path name (.ok rom)).rom_size = some rom.length) ∧
    ((load_game s path name (.ok rom)).program_counter = s.program_counter) ∧
    ((load_game s path name (.ok rom)).v_registers = s.v_registers) ∧
    ((load_game s path name (.ok rom)).i_register = s.i_register) := by
  have hgt : rom.length > 4096 - 512 := by omega
  unfold load_game core_error
  dsimp only
  rw [if_pos hgt]
  exact ⟨rfl, rfl, rfl, rfl, rfl, rfl, rfl⟩

/-- C3 witness: a 3585-byte ROM loaded into the fresh machine. -/
theorem c3_rom_too_large_witness :
    ((load_game initial_state "path" "name" (.ok (List.replicate 3585 0))).error =
      some (.romTooLarge "path" 3585 3584)) ∧
    ((load_game initial_state "path" "name" (.ok (List.replicate 3585 0))).memory =
      initial_state.memory) ∧
    ((load_game initial_state "path" "name" (.ok (List.replicate 3585 0))).rom_size =
      some 3585) := by
  obtain ⟨h1, h2, _, h4, _⟩ := c3_rom_too_large initial_state "path" "name"
    (List.replicate 3585 0) (by rw [List.length_replicate]; norm_num)
  rw [List.length_replicate] at h1 h4
  exact ⟨h1, h2, h4⟩

/-- C3 counterexample: loading a 3585-byte ROM into the fresh machine
(whose `rom_size` and `rom_name` are `none`) sets `rom_size` and
`rom_name`, refuting the claim that they are left unchanged.  The final
conjunct refutes the claimed preservation of `rom_size`. -/
theorem c3_rom_too_large_cex :
    ((load_game initial_state "p" "r" (.ok (List.replicate 3585 0))).rom_size =
      some 3585) ∧
    ((load_game initial_state "p" "r" (.ok (List.replicate 3585 0))).rom_name =
      some "r") ∧
    (initial_state.rom_size = none) ∧ (initial_state.rom_name = none) ∧
    (((load_game initial_state "p" "r" (.ok (List.replicate 3585 0))).rom_size =
      initial_state.rom_size) = False) := by
  have h := c3_rom_too_large initial_state "p" "r" (List.replicate 3585 0)
    (by rw [List.length_replicate]; norm_num)
  obtain ⟨_, _, h3, h4, _⟩ := h
  rw [List.length_replicate] at h4
  refine ⟨h4, h3, rfl, rfl, eq_false ?_⟩
  intro hcontra
  rw [h4] at hcontra
  exact Option.noConfusion hcontra

/-- C7, confirmed.  `00EE` with an empty call stack: the error is
`InvalidReturn` carrying exactly the fetch address (the PC value before the
fetch), the stack stays empty, and nothing else changes except the fetch's
own PC advance — the result is the pre-state with `program_counter + 2` and
the error field set. -/
theorem c7_invalid_return (s : CoreState) (inp : Inputs)
    (hpc : s.program_counter + 1 < 4096)
    (hb0 : s.memory s.program_counter = 0x00)
    (hb1 : s.memory (s.program_counter + 1) = 0xEE)
    (hstack : s.call_stack = []) :
    execute_opcode inp s =
      some { s with program_counter := s.program_counter + 2,
                    error := some (.invalidReturn s.program_counter) } := by
  unfold execute_opcode
  rw [if_pos hpc, hb0, hb1]
  unfold execute_opcode_body
  norm_num
  unfold execute_opcode_0
  norm_num
  have hcs : ({ s with program_counter := s.program_counter + 2 } : CoreState).call_stack
      = [] := hstack
  rw [hcs]
  simp [core_error]

/-- C7 witness: `00EE` at PC 512 on the fresh (font-loaded) machine with an
empty stack: the error carries fetch address 512 and only PC and the error
change. -/
theorem c7_invalid_return_witness :
    execute_opcode inputs0 c7_wit_state =
      some { c7_wit_state with program_counter := 514,
                               error := some (.invalidReturn 512) } :=
  c7_invalid_return c7_wit_state inputs0 (by decide) (by decide) (by decide) rfl

theorem body_dispatch_5 (inp : Inputs) (s : CoreState) (op : Nat)
    (h : op / 4096 % 16 = 5) :
    execute_opcode_body inp s op = some (execute_opcode_5 s op) := by
  unfold execute_opcode_body
  rw [h]
  norm_num

theorem body_dispatch_8 (inp : Inputs) (s : CoreState) (op : Nat)
    (h : op / 4096 % 16 = 8) :
    execute_opcode_body inp s op = some (execute_opcode_8 s op) := by
  unfold execute_opcode_body
  rw [h]
  norm_num

theorem body_dispatch_9 (inp : Inputs) (s : CoreState) (op : Nat)
    (h : op / 4096 % 16 = 9) :
    execute_opcode_body inp s op = some (execute_opcode_9 s op) := by
  unfold execute_opcode_body
  rw [h]
  norm_num

theorem body_dispatch_f (inp : Inputs) (s : CoreState) (op : Nat)
    (h : op / 4096 % 16 = 15) :
    execute_opcode_body inp s op = execute_opcode_f inp s op := by
  unfold execute_opcode_body
  rw [h]
  norm_num

theorem fetch_unfold (inp : Inputs) (s : CoreState) (hpc : s.program_counter + 1 < 4096) :
    execute_opcode inp s =
      execute_opcode_body inp { s with program_counter := s.program_counter + 2 }
        (s.memory s.program_counter * 256 + s.memory (s.program_counter + 1)) := by
  unfold execute_opcode
  rw [if_pos hpc]

/-- C10, confirmed.  `5XYL`/`9XYL` with a nonzero low nibble `L` record an
`InvalidOpcode` error carrying the raw opcode and the fetch address — and
then still evaluate the register comparison, additionally skipping (PC + 4
in total) when it holds for `5XY_`, respectively fails for `9XY_`; the
state is mutated beyond the error field on this error path. -/
theorem c10_invalid_low_nibble_still_compares (s : CoreState) (inp : Inputs)
    (x y L : Nat) (hx : x < 16) (hy : y < 16) (hL0 : 0 < L) (hL : L < 16)
    (hpc : s.program_counter + 1 < 4096) :
    (s.memory s.program_counter = 0x50 + x →
      s.memory (s.program_counter + 1) = 16 * y + L →
      ((execute_opcode inp s).map (fun t => t.error) =
        some (some (.invalidOpcode ((0x50 + x) * 256 + (16 * y + L))
          s.program_counter)) ∧
      (execute_opcode inp s).map (fun t => t.program_counter) =
        some (if s.v_registers x = s.v_registers y then s.program_counter + 4
          else s.program_counter + 2))) ∧
    (s.memory s.program_counter = 0x90 + x →
      s.memory (s.program_counter + 1) = 16 * y + L →
      ((execute_opcode inp s).map (fun t => t.error) =
        some (some (.invalidOpcode ((0x90 + x) * 256 + (16 * y + L))
          s.program_counter)) ∧
      (execute_opcode inp s).map (fun t => t.program_counter) =
        some (if s.v_registers x = s.v_registers y then s.program_counter + 2
          else s.program_counter + 4))) := by
  constructor
  · intro hb0 hb1
    rw [fetch_unfold inp s hpc, hb0, hb1]
    rw [body_dispatch_5 inp _ _ (by omega)]
    unfold execute_opcode_5 core_error skip_opcode
    rw [show ((0x50 + x) * 256 + (16 * y + L)) / 256 % 16 = x from by omega,
      show ((0x50 + x) * 256 + (16 * y + L)) / 16 % 16 = y from by omega,
      show ((0x50 + x) * 256 + (16 * y + L)) % 16 = L from by omega,
      if_pos (show ¬L = 0 from by omega)]
    dsimp only
    rw [Nat.add_sub_cancel]
    by_cases hvv : s.v_registers x = s.v_registers y
    · rw [if_pos hvv, if_pos hvv]
      exact ⟨rfl, by simp only [Option.map_some']⟩
    · rw [if_neg hvv, if_neg hvv]
      exact ⟨rfl, rfl⟩
  · intro hb0 hb1
    rw [fetch_unfold inp s hpc, hb0, hb1]
    rw [body_dispatch_9 inp _ _ (by omega)]
    unfold execute_opcode_9 core_error skip_opcode
    rw [show ((0x90 + x) * 256 + (16 * y + L)) / 256 % 16 = x from by omega,
      show ((0x90 + x) * 256 + (16 * y + L)) / 16 % 16 = y from by omega,
      show ((0x90 + x) * 256 + (16 * y + L)) % 16 = L from by omega,
      if_pos (show ¬L = 0 from by omega)]
    dsimp only
    rw [Nat.add_sub_cancel]
    by_cases hvv : s.v_registers x = s.v_registers y
    · rw [if_pos hvv, if_neg (show ¬s.v_registers x ≠ s.v_registers y from by tauto)]
      exact ⟨rfl, rfl⟩
    · rw [if_neg hvv, if_pos hvv]
      exact ⟨rfl, by simp only [Option.map_some']⟩

/-- C10 witness: `5011` (invalid low nibble, `V0 = V1 = 0`) records the
error and still skips (PC 512 → 516); `9011` records the error and does not
skip (PC 512 → 514). -/
theorem c10_invalid_low_nibble_still_compares_witness :
    ((execute_opcode inputs0 c10_wit_state5).map (fun t => t.error) =
      some (some (.invalidOpcode 0x5011 512)) ∧
    (execute_opcode inputs0 c10_wit_state5).map (fun t => t.program_counter) =
      some 516) ∧
    ((execute_opcode inputs0 c10_wit_state9).map (fun t => t.error) =
      some (some (.invalidOpcode 0x9011 512)) ∧
    (execute_opcode inputs0 c10_wit_state9).map (fun t => t.program_counter) =
      some 514) := by
  have h5 := (c10_invalid_low_nibble_still_compares c10_wit_state5 inputs0 0 1 1
    (by decide) (by decide) (by decide) (by decide) (by decide)).1
    (by decide) (by decide)
  have h9 := (c10_invalid_low_nibble_still_compares c10_wit_state9 inputs0 0 1 1
    (by decide) (by decide) (by decide) (by decide) (by decide)).2
    (by decide) (by decide)
  obtain ⟨h5e, h5p⟩ := h5
  obtain ⟨h9e, h9p⟩ := h9
  refine ⟨⟨?_, ?_⟩, ⟨?_, ?_⟩⟩
  · rw [h5e]
    decide
  · rw [h5p]
    decide
  · rw [h9e]
    decide
  · rw [h9p]
    decide

theorem opcode8_add (s : CoreState) (op : Nat) (h : op % 16 = 4) :
    execute_opcode_8 s op =
      { s with v_registers :=
          (upd (upd s.v_registers (op / 256 % 16)
            ((s.v_registers (op / 256 % 16) + s.v_registers (op / 16 % 16)) % 256)) 15
            (if 256 ≤ s.v_registers (op / 256 % 16) + s.v_registers (op / 16 % 16)
              then 1 else 0)) } := by
  unfold execute_opcode_8
  rw [h]
  norm_num

theorem opcode8_sub (s : CoreState) (op : Nat) (h : op % 16 = 5) :
    execute_opcode_8 s op =
      { s with v_registers :=
          (upd (upd s.v_registers (op / 256 % 16)
            ((s.v_registers (op / 256 % 16) + 256 - s.v_registers (op / 16 % 16)) % 256)) 15
            (if s.v_registers (op / 256 % 16) < s.v_registers (op / 16 % 16)
              then 0 else 1)) } := by
  unfold execute_opcode_8
  rw [h]
  norm_num

theorem opcode8_subn (s : CoreState) (op : Nat) (h : op % 16 = 7) :
    execute_opcode_8 s op =
      { s with v_registers :=
          (upd (upd s.v_registers (op / 256 % 16)
            ((s.v_registers (op / 16 % 16) + 256 - s.v_registers (op / 256 % 16)) % 256)) 15
            (if s.v_registers (op / 16 % 16) < s.v_registers (op / 256 % 16)
              then 0 else 1)) } := by
  unfold execute_opcode_8
  rw [h]
  norm_num

/-- C8, corrected.  For destination registers other than VF itself
(`X ≠ 0xF`): `8XY4` stores `(VX + VY) mod 256` into VX and sets VF to 1
exactly when `VX + VY ≥ 256`; `8XY5` stores the wrapped difference
`VX - VY` and `8XY7` the wrapped `VY - VX`, each setting VF to 0 on borrow
and 1 otherwise.  (When `X = 0xF` the subsequent flag write overwrites the
stored result, so the stored-sum clause of the claim fails there — see the
counterexample.) -/
theorem c8_alu_carry_borrow (s : CoreState) (inp : Inputs) (x y : Nat)
    (hx : x < 15) (hy : y < 16)
    (hvx : s.v_registers x < 256) (hvy : s.v_registers y < 256)
    (hpc : s.program_counter + 1 < 4096)
    (hb0 : s.memory s.program_counter = 0x80 + x) :
    (s.memory (s.program_counter + 1) = 16 * y + 4 →
      ((execute_opcode inp s).map (fun t => t.v_registers x) =
        some ((s.v_registers x + s.v_registers y) % 256)) ∧
      ((execute_opcode inp s).map (fun t => t.v_registers 15) =
        some (if 256 ≤ s.v_registers x + s.v_registers y then 1 else 0)) ∧
      ((execute_opcode inp s).map (fun t => t.program_counter) =
        some (s.program_counter + 2))) ∧
    (s.memory (s.program_counter + 1) = 16 * y + 5 →
      ((execute_opcode inp s).map (fun t => t.v_registers x) =
        some ((s.v_registers x + 256 - s.v_registers y) % 256)) ∧
      ((execute_opcode inp s).map (fun t => t.v_registers 15) =
        some (if s.v_registers x < s.v_registers y then 0 else 1)) ∧
      ((execute_opcode inp s).map (fun t => t.program_counter) =
        some (s.program_counter + 2))) ∧
    (s.memory (s.program_counter + 1) = 16 * y + 7 →
      ((execute_opcode inp s).map (fun t => t.v_registers x) =
        some ((s.v_registers y + 256 - s.v_registers x) % 256)) ∧
      ((execute_opcode inp s).map (fun t => t.v_registers 15) =
        some (if s.v_registers y < s.v_registers x then 0 else 1)) ∧
      ((execute_opcode inp s).map (fun t => t.program_counter) =
        some (s.program_counter + 2))) := by
  have hx15 : x ≠ 15 := by omega
  refine ⟨?_, ?_, ?_⟩
  · intro hb1
    rw [fetch_unfold inp s hpc, hb0, hb1]
    rw [body_dispatch_8 inp _ _ (by omega)]
    rw [opcode8_add _ _ (by omega)]
    rw [show ((0x80 + x) * 256 + (16 * y + 4)) / 256 % 16 = x from by omega,
      show ((0x80 + x) * 256 + (16 * y + 4)) / 16 % 16 = y from by omega]
    dsimp only
    simp only [Option.map_some']
    exact ⟨by rw [upd_ne _ _ _ _ hx15, upd_at], by rw [upd_at], trivial⟩
  · intro hb1
    rw [fetch_unfold inp s hpc, hb0, hb1]
    rw [body_dispatch_8 inp _ _ (by omega)]
    rw [opcode8_sub _ _ (by omega)]
    rw [show ((0x80 + x) * 256 + (16 * y + 5)) / 256 % 16 = x from by omega,
      show ((0x80 + x) * 256 + (16 * y + 5)) / 16 % 16 = y from by omega]
    dsimp only
    simp only [Option.map_some']
    exact ⟨by rw [upd_ne _ _ _ _ hx15, upd_at], by rw [upd_at], trivial⟩
  · intro hb1
    rw [fetch_unfold inp s hpc, hb0, hb1]
    rw [body_dispatch_8 inp _ _ (by omega)]
    rw [opcode8_subn _ _ (by omega)]
    rw [show ((0x80 + x) * 256 + (16 * y + 7)) / 256 % 16 = x from by omega,
      show ((0x80 + x) * 256 + (16 * y + 7)) / 16 % 16 = y from by omega]
    dsimp only
    simp only [Option.map_some']
    exact ⟨by rw [upd_ne _ _ _ _ hx15, upd_at], by rw [upd_at], trivial⟩

/-- C8 witness: the claim's two concrete instances.  `8014` with `V0 = 0xFF`,
`V1 = 0x01` gives `V0 = 0x00`, `VF = 1`; `8015` with `V0 = 0x01`,
`V1 = 0x02` gives `V0 = 0xFF`, `VF = 0`. -/
theorem c8_alu_carry_borrow_witness :
    ((execute_opcode inputs0 c8_wit_state_add).map (fun t => t.v_registers 0) =
      some 0x00 ∧
    (execute_opcode inputs0 c8_wit_state_add).map (fun t => t.v_registers 15) =
      some 1) ∧
    ((execute_opcode inputs0 c8_wit_state_sub).map (fun t => t.v_registers 0) =
      some 0xFF ∧
    (execute_opcode inputs0 c8_wit_state_sub).map (fun t => t.v_registers 15) =
      some 0) := by
  have hadd := (c8_alu_carry_borrow c8_wit_state_add inputs0 0 1
    (by decide) (by decide) (by decide) (by decide) (by decide) (by decide)).1
    (by decide)
  have hsub := (c8_alu_carry_borrow c8_wit_state_sub inputs0 0 1
    (by decide) (by decide) (by decide) (by decide) (by decide) (by decide)).2.1
    (by decide)
  obtain ⟨ha1, ha2, _⟩ := hadd
  obtain ⟨hs1, hs2, _⟩ := hsub
  refine ⟨⟨?_, ?_⟩, ⟨?_, ?_⟩⟩
  · rw [ha1]
    decide
  · rw [ha2]
    decide
  · rw [hs1]
    decide
  · rw [hs2]
    decide

/-- C8 counterexample: `8F04` (`X = 0xF`) with `VF = 0xFF`, `V0 = 0x01`.
The claim predicts VX (= VF) ends as `(0xFF + 0x01) mod 256 = 0`; the code
stores the sum and then overwrites it with the carry flag, ending at 1.
The second conjunct refutes the claim's prediction. -/
theorem c8_alu_carry_borrow_cex :
    ((execute_opcode inputs0 c8_cex_state).map (fun t => t.v_registers 15) =
      some 1) ∧
    (((execute_opcode inputs0 c8_cex_state).map (fun t => t.v_registers 15) =
      some ((0xFF + 0x01) % 256)) = False) :=
  ⟨by decide, eq_false (by decide)⟩

theorem fx55_go_spec : ∀ (m k : Nat) (s : CoreState), s.i_register + m ≤ 4096 →
    ∃ t, fx55_go s (nat_range k m) = some t ∧
      t.i_register = s.i_register + m ∧
      (∀ a, t.memory a =
        if s.i_register ≤ a ∧ a < s.i_register + m
        then s.v_registers (k + (a - s.i_register)) else s.memory a) ∧
      t.v_registers = s.v_registers ∧
      t.program_counter = s.program_counter ∧ t.error = s.error ∧
      t.image = s.image ∧ t.call_stack = s.call_stack := by
  intro m
  induction m with
  | zero =>
    intro k s _
    refine ⟨s, rfl, rfl, ?_, rfl, rfl, rfl, rfl, rfl⟩
    intro a
    have h : ¬(s.i_register ≤ a ∧ a < s.i_register + 0) := by omega
    rw [if_neg h]
  | succ m ih =>
    intro k s hbound
    have hguard : s.i_register < 4096 := by omega
    rw [nat_range_succ]
    have hw : write_mem s s.i_register (s.v_registers k) =
        some { s with memory := upd s.memory s.i_register (s.v_registers k) } := by
      unfold write_mem
      rw [if_pos hguard]
    have hstep : fx55_go s (k :: nat_range (k + 1) m) =
        fx55_go { s with memory := upd s.memory s.i_register (s.v_registers k),
                         i_register := s.i_register + 1 } (nat_range (k + 1) m) := by
      simp only [fx55_go]
      rw [hw]
    rw [hstep]
    set s2 : CoreState :=
      { s with memory := upd s.memory s.i_register (s.v_registers k),
               i_register := s.i_register + 1 } with hs2
    obtain ⟨t, ht, hti, htm, htv, htp, hte, htimg, htcs⟩ := ih (k + 1) s2 (by
      show s.i_register + 1 + m ≤ 4096
      omega)
    refine ⟨t, ht, by rw [hti]; show s.i_register + 1 + m = _; omega, ?_,
      htv, htp, hte, htimg, htcs⟩
    intro a
    rw [htm a]
    show (if s.i_register + 1 ≤ a ∧ a < s.i_register + 1 + m
        then s.v_registers (k + 1 + (a - (s.i_register + 1)))
        else upd s.memory s.i_register (s.v_registers k) a) = _
    by_cases hin : s.i_register + 1 ≤ a ∧ a < s.i_register + 1 + m
    · rw [if_pos hin]
      have htc : s.i_register ≤ a ∧ a < s.i_register + (m + 1) := by omega
      rw [if_pos htc]
      have : k + 1 + (a - (s.i_register + 1)) = k + (a - s.i_register) := by omega
      rw [this]
    · rw [if_neg hin]
      by_cases ha : a = s.i_register
      · subst ha
        have htc : s.i_register ≤ s.i_register ∧ s.i_register < s.i_register + (m + 1) := by
          omega
        rw [if_pos htc, upd_at]
        have : k + (s.i_register - s.i_register) = k := by omega
        rw [this]
      · rw [upd_ne _ _ _ _ ha]
        have htc : ¬(s.i_register ≤ a ∧ a < s.i_register + (m + 1)) := by omega
        rw [if_neg htc]

theorem fx65_go_spec : ∀ (m k : Nat) (s : CoreState), s.i_register + m ≤ 4096 →
    ∃ t, fx65_go s (nat_range k m) = some t ∧
      t.i_register = s.i_register + m ∧
      (∀ j, t.v_registers j =
        if k ≤ j ∧ j < k + m then s.memory (s.i_register + (j - k))
        else s.v_registers j) ∧
      t.memory = s.memory ∧
      t.program_counter = s.program_counter ∧ t.error = s.error ∧
      t.image = s.image ∧ t.call_stack = s.call_stack := by
  intro m
  induction m with
  | zero =>
    intro k s _
    refine ⟨s, rfl, rfl, ?_, rfl, rfl, rfl, rfl, rfl⟩
    intro j
    have h : ¬(k ≤ j ∧ j < k + 0) := by omega
    rw [if_neg h]
  | succ m ih =>
    intro k s hbound
    have hguard : s.i_register < 4096 := by omega
    rw [nat_range_succ]
    have hr : read_mem s s.i_register = some (s.memory s.i_register) := by
      unfold read_mem
      rw [if_pos hguard]
    have hstep : fx65_go s (k :: nat_range (k + 1) m) =
        fx65_go { s with v_registers := upd s.v_registers k (s.memory s.i_register),
                         i_register := s.i_register + 1 } (nat_range (k + 1) m) := by
      simp only [fx65_go]
      rw [hr]
    rw [hstep]
    set s2 : CoreState :=
      { s with v_registers := upd s.v_registers k (s.memory s.i_register),
               i_register := s.i_register + 1 } with hs2
    obtain ⟨t, ht, hti, htv, htm, htp, hte, htimg, htcs⟩ := ih (k + 1) s2 (by
      show s.i_register + 1 + m ≤ 4096
      omega)
    refine ⟨t, ht, by rw [hti]; show s.i_register + 1 + m = _; omega, ?_,
      htm, htp, hte, htimg, htcs⟩
    intro j
    rw [htv j]
    show (if k + 1 ≤ j ∧ j < k + 1 + m
        then s.memory (s.i_register + 1 + (j - (k + 1)))
        else upd s.v_registers k (s.memory s.i_register) j) = _
    by_cases hin : k + 1 ≤ j ∧ j < k + 1 + m
    · rw [if_pos hin]
      have htc : k ≤ j ∧ j < k + (m + 1) := by omega
      rw [if_pos htc]
      have : s.i_register + 1 + (j - (k + 1)) = s.i_register + (j - k) := by omega
      rw [this]
    · rw [if_neg hin]
      by_cases hj : j = k
      · subst hj
        have htc : j ≤ j ∧ j < j + (m + 1) := by omega
        rw [if_pos htc, upd_at]
        have : j - j = 0 := by omega
        rw [this]
        rfl
      · rw [upd_ne _ _ _ _ hj]
        have htc : ¬(k ≤ j ∧ j < k + (m + 1)) := by omega
        rw [if_neg htc]

theorem opcodef_55 (inp : Inputs) (s : CoreState) (op : Nat) (h : op % 256 = 0x55) :
    execute_opcode_f inp s op = fx55_go s (nat_range 0 (op / 256 % 16 + 1)) := by
  unfold execute_opcode_f
  rw [h]
  norm_num

theorem opcodef_65 (inp : Inputs) (s : CoreState) (op : Nat) (h : op % 256 = 0x65) :
    execute_opcode_f inp s op = fx65_go s (nat_range 0 (op / 256 % 16 + 1)) := by
  unfold execute_opcode_f
  rw [h]
  norm_num

theorem write_mem_pos (s : CoreState) (a v : Nat) (h : a < 4096) :
    write_mem s a v = some { s with memory := upd s.memory a v } := by
  unfold write_mem
  rw [if_pos h]

theorem write_mem_neg (s : CoreState) (a v : Nat) (h : ¬a < 4096) :
    write_mem s a v = none := by
  unfold write_mem
  rw [if_neg h]

theorem opcodef_33 (inp : Inputs) (s : CoreState) (op : Nat) (h : op % 256 = 0x33) :
    execute_opcode_f inp s op =
      (match write_mem s s.i_register (s.v_registers (op / 256 % 16) / 100) with
      | none => none
      | some s1 =>
        match write_mem s1 (s1.i_register + 1)
            (s.v_registers (op / 256 % 16) % 100 / 10) with
        | none => none
        | some s2 => write_mem s2 (s2.i_register + 2)
            (s.v_registers (op / 256 % 16) % 10)) := by
  unfold execute_opcode_f
  rw [h]
  norm_num

/-- C4, corrected.  `FX55` stores V0..VX to memory at I..I+X and `FX65`
loads V0..VX from I..I+X, as claimed — but both increment `i_register` once
per transferred register, so after the instruction `i_register` equals its
pre-instruction value plus X + 1, not its pre-instruction value. -/
theorem c4_fx55_fx65_modify_i (s : CoreState) (inp : Inputs) (x : Nat)
    (hx : x < 16) (hpc : s.program_counter + 1 < 4096)
    (hb0 : s.memory s.program_counter = 0xF0 + x)
    (hi : s.i_register + x < 4096) :
    (s.memory (s.program_counter + 1) = 0x55 →
      ((execute_opcode inp s).map (fun t => t.i_register) =
        some (s.i_register + x + 1)) ∧
      (∀ a, (execute_opcode inp s).map (fun t => t.memory a) =
        some (if s.i_register ≤ a ∧ a ≤ s.i_register + x
          then s.v_registers (a - s.i_register) else s.memory a)) ∧
      ((execute_opcode inp s).map (fun t => t.v_registers) = some s.v_registers) ∧
      ((execute_opcode inp s).map (fun t => t.program_counter) =
        some (s.program_counter + 2))) ∧
    (s.memory (s.program_counter + 1) = 0x65 →
      ((execute_opcode inp s).map (fun t => t.i_register) =
        some (s.i_register + x + 1)) ∧
      (∀ j, (execute_opcode inp s).map (fun t => t.v_registers j) =
        some (if j ≤ x then s.memory (s.i_register + j) else s.v_registers j)) ∧
      ((execute_opcode inp s).map (fun t => t.memory) = some s.memory) ∧
      ((execute_opcode inp s).map (fun t => t.program_counter) =
        some (s.program_counter + 2))) := by
  constructor
  · intro hb1
    rw [fetch_unfold inp s hpc, hb0, hb1]
    rw [body_dispatch_f inp _ _ (by omega)]
    rw [opcodef_55 inp _ _ (by omega)]
    rw [show ((0xF0 + x) * 256 + 0x55) / 256 % 16 = x from by omega]
    obtain ⟨t, ht, hti, htm, htv, htp, _⟩ :=
      fx55_go_spec (x + 1) 0
        { s with program_counter := s.program_counter + 2 }
        (by show s.i_register + (x + 1) ≤ 4096; omega)
    rw [ht]
    simp only [Option.map_some', Option.some.injEq]
    refine ⟨?_, ?_, ?_, ?_⟩
    · rw [hti]
      show s.i_register + (x + 1) = _
      omega
    · intro a
      rw [htm a]
      show (if s.i_register ≤ a ∧ a < s.i_register + (x + 1)
          then s.v_registers (0 + (a - s.i_register)) else s.memory a) = _
      by_cases hin : s.i_register ≤ a ∧ a ≤ s.i_register + x
      · rw [if_pos (show s.i_register ≤ a ∧ a < s.i_register + (x + 1) from by omega),
          if_pos hin, Nat.zero_add]
      · rw [if_neg (show ¬(s.i_register ≤ a ∧ a < s.i_register + (x + 1)) from by omega),
          if_neg hin]
    · rw [htv]
    · rw [htp]
  · intro hb1
    rw [fetch_unfold inp s hpc, hb0, hb1]
    rw [body_dispatch_f inp _ _ (by omega)]
    rw [opcodef_65 inp _ _ (by omega)]
    rw [show ((0xF0 + x) * 256 + 0x65) / 256 % 16 = x from by omega]
    obtain ⟨t, ht, hti, htv, htm, htp, _⟩ :=
      fx65_go_spec (x + 1) 0
        { s with program_counter := s.program_counter + 2 }
        (by show s.i_register + (x + 1) ≤ 4096; omega)
    rw [ht]
    simp only [Option.map_some', Option.some.injEq]
    refine ⟨?_, ?_, ?_, ?_⟩
    · rw [hti]
      show s.i_register + (x + 1) = _
      omega
    · intro j
      rw [htv j]
      show (if 0 ≤ j ∧ j < 0 + (x + 1)
          then s.memory (s.i_register + (j - 0)) else s.v_registers j) = _
      by_cases hin : j ≤ x
      · rw [if_pos (show 0 ≤ j ∧ j < 0 + (x + 1) from by omega), if_pos hin]
        have : j - 0 = j := by omega
        rw [this]
      · rw [if_neg (show ¬(0 ≤ j ∧ j < 0 + (x + 1)) from by omega), if_neg hin]
    · rw [htm]
    · rw [htp]

/-- C4 witness: `F055` and `F065` (X = 0) at PC 512 with `I = 1000`: one
register is transferred and `i_register` ends at 1001 = I + X + 1. -/
theorem c4_fx55_fx65_modify_i_witness :
    ((execute_opcode inputs0 c4_cex_state).map (fun t => t.i_register) =
      some 1001) ∧
    ((execute_opcode inputs0 c4_cex_state).map (fun t => t.memory 1000) =
      some (c4_cex_state.v_registers 0)) ∧
    ((execute_opcode inputs0 c4_wit_state65).map (fun t => t.i_register) =
      some 1001) ∧
    ((execute_opcode inputs0 c4_wit_state65).map (fun t => t.v_registers 0) =
      some (c4_wit_state65.memory 1000)) := by
  have h55 := (c4_fx55_fx65_modify_i c4_cex_state inputs0 0
    (by decide) (by decide) (by decide) (by decide)).1 (by decide)
  have h65 := (c4_fx55_fx65_modify_i c4_wit_state65 inputs0 0
    (by decide) (by decide) (by decide) (by decide)).2 (by decide)
  obtain ⟨hi55, hm55, _⟩ := h55
  obtain ⟨hi65, hv65, _⟩ := h65
  refine ⟨?_, ?_, ?_, ?_⟩
  · rw [hi55]
    decide
  · rw [hm55 1000]
    decide
  · rw [hi65]
    decide
  · rw [hv65 0]
    decide

/-- C4 counterexample: `F055` (X = 0) at `I = 1000` leaves `i_register` at
1001, refuting the claim that `i_register` after the instruction equals its
value before (1000).  The second conjunct refutes the claimed preservation. -/
theorem c4_fx55_fx65_modify_i_cex :
    ((execute_opcode inputs0 c4_cex_state).map (fun t => t.i_register) =
      some 1001) ∧
    (((execute_opcode inputs0 c4_cex_state).map (fun t => t.i_register) =
      some c4_cex_state.i_register) = False) :=
  ⟨by decide, eq_false (by decide)⟩

theorem fx55_go_oob : ∀ (m k : Nat) (s : CoreState), 0 < m →
    4096 < s.i_register + m → fx55_go s (nat_range k m) = none := by
  intro m
  induction m with
  | zero =>
    intro k s h0 _
    exact (Nat.lt_irrefl 0 h0).elim
  | succ m ih =>
    intro k s _ hb
    rw [nat_range_succ]
    by_cases hg : s.i_register < 4096
    · have hw : write_mem s s.i_register (s.v_registers k) =
          some { s with memory := upd s.memory s.i_register (s.v_registers k) } := by
        unfold write_mem
        rw [if_pos hg]
      have hstep : fx55_go s (k :: nat_range (k + 1) m) =
          fx55_go { s with memory := upd s.memory s.i_register (s.v_registers k),
                           i_register := s.i_register + 1 } (nat_range (k + 1) m) := by
        simp only [fx55_go]
        rw [hw]
      rw [hstep]
      exact ih (k + 1) _ (by omega) (by show 4096 < s.i_register + 1 + m; omega)
    · have hw : write_mem s s.i_register (s.v_registers k) = none := by
        unfold write_mem
        rw [if_neg hg]
      simp only [fx55_go]
      rw [hw]

theorem fx65_go_oob : ∀ (m k : Nat) (s : CoreState), 0 < m →
    4096 < s.i_register + m → fx65_go s (nat_range k m) = none := by
  intro m
  induction m with
  | zero =>
    intro k s h0 _
    exact (Nat.lt_irrefl 0 h0).elim
  | succ m ih =>
    intro k s _ hb
    rw [nat_range_succ]
    by_cases hg : s.i_register < 4096
    · have hr : read_mem s s.i_register = some (s.memory s.i_register) := by
        unfold read_mem
        rw [if_pos hg]
      have hstep : fx65_go s (k :: nat_range (k + 1) m) =
          fx65_go { s with v_registers := upd s.v_registers k (s.memory s.i_register),
                           i_register := s.i_register + 1 } (nat_range (k + 1) m) := by
        simp only [fx65_go]
        rw [hr]
      rw [hstep]
      exact ih (k + 1) _ (by omega) (by show 4096 < s.i_register + 1 + m; omega)
    · have hr : read_mem s s.i_register = none := by
        unfold read_mem
        rw [if_neg hg]
      simp only [fx65_go]
      rw [hr]

theorem draw_rows_oob (x0 y0 : Nat) : ∀ (m r : Nat) (s : CoreState), 0 < m →
    4096 < s.i_register + r + m → draw_sprite_rows s x0 y0 (nat_range r m) = none := by
  intro m
  induction m with
  | zero =>
    intro r s h0 _
    exact (Nat.lt_irrefl 0 h0).elim
  | succ m ih =>
    intro r s _ hb
    rw [nat_range_succ]
    by_cases hg : s.i_register + r < 4096
    · have hstep : draw_sprite_rows s x0 y0 (r :: nat_range (r + 1) m) =
          draw_sprite_rows (draw_sprite_cols s x0 y0 r (s.memory (s.i_register + r))
            (nat_range 0 8)) x0 y0 (nat_range (r + 1) m) := by
        simp only [draw_sprite_rows]
        rw [if_pos hg]
      rw [hstep]
      have hieq := (draw_cols_spec x0 y0 r (s.memory (s.i_register + r)) 8 0 s).2.2.2.1
      exact ih (r + 1) _ (by omega) (by rw [hieq]; omega)
    · simp only [draw_sprite_rows]
      rw [if_neg hg]

/-- C5, corrected.  The spec's own design note says the reference does not
bounds-check `i_register + offset`; the claim that every such access "is
guarded so the effective address never exceeds 4095" is false of this code:
`write_mem`/`read_mem` and the `DXYN` row fetch index the 4096-byte array
directly, and an effective address above 4095 is an out-of-bounds panic
that kills the emulation thread (modelled as `none`).  Amended statement:
the I-relative accesses of `FX33`, `FX55`, `FX65` and `DXYN` are unguarded,
and whenever the largest effective address (`I+2`, `I+X`, `I+X`, `I+N-1`
respectively) exceeds 4095 the instruction aborts instead of completing. -/
theorem c5_unguarded_i_relative_access (s : CoreState) (inp : Inputs) (x y n : Nat)
    (hx : x < 16) (hy : y < 16) (hn : n < 16)
    (hpc : s.program_counter + 1 < 4096) :
    (s.memory s.program_counter = 0xF0 + x →
      s.memory (s.program_counter + 1) = 0x33 →
      4093 < s.i_register → execute_opcode inp s = none) ∧
    (s.memory s.program_counter = 0xF0 + x →
      s.memory (s.program_counter + 1) = 0x55 →
      4095 < s.i_register + x → execute_opcode inp s = none) ∧
    (s.memory s.program_counter = 0xF0 + x →
      s.memory (s.program_counter + 1) = 0x65 →
      4095 < s.i_register + x → execute_opcode inp s = none) ∧
    (s.memory s.program_counter = 0xD0 + x →
      s.memory (s.program_counter + 1) = 16 * y + n → 0 < n →
      4096 < s.i_register + n → execute_opcode inp s = none) := by
  refine ⟨?_, ?_, ?_, ?_⟩
  · intro hb0 hb1 hi
    rw [fetch_unfold inp s hpc, hb0, hb1]
    rw [body_dispatch_f inp _ _ (by omega)]
    rw [opcodef_33 inp _ _ (by omega)]
    by_cases hg1 : s.i_register < 4096
    · rw [write_mem_pos _ _ _ hg1]
      dsimp only
      by_cases hg2 : s.i_register + 1 < 4096
      · rw [write_mem_pos _ _ _ hg2]
        dsimp only
        exact write_mem_neg _ _ _ (by omega)
      · rw [write_mem_neg _ _ _ hg2]
    · rw [write_mem_neg _ _ _ hg1]
  · intro hb0 hb1 hi
    rw [fetch_unfold inp s hpc, hb0, hb1]
    rw [body_dispatch_f inp _ _ (by omega)]
    rw [opcodef_55 inp _ _ (by omega)]
    rw [show ((0xF0 + x) * 256 + 0x55) / 256 % 16 = x from by omega]
    exact fx55_go_oob (x + 1) 0 _ (by omega)
      (by show 4096 < s.i_register + (x + 1); omega)
  · intro hb0 hb1 hi
    rw [fetch_unfold inp s hpc, hb0, hb1]
    rw [body_dispatch_f inp _ _ (by omega)]
    rw [opcodef_65 inp _ _ (by omega)]
    rw [show ((0xF0 + x) * 256 + 0x65) / 256 % 16 = x from by omega]
    exact fx65_go_oob (x + 1) 0 _ (by omega)
      (by show 4096 < s.i_register + (x + 1); omega)
  · intro hb0 hb1 hn0 hi
    rw [fetch_unfold inp s hpc, hb0, hb1]
    have hD : ((0xD0 + x) * 256 + (16 * y + n)) / 4096 % 16 = 13 := by omega
    unfold execute_opcode_body
    rw [hD]
    norm_num
    unfold execute_opcode_d
    rw [show ((0xD0 + x) * 256 + (16 * y + n)) % 16 = n from by omega]
    exact draw_rows_oob _ _ n 0 _ (by omega)
      (by show 4096 < s.i_register + 0 + n; omega)

/-- C5 witness: four concrete I-relative overruns, one per instruction
family — `F033` with `I = 4095`, `F655`/`F665` with `I = 4090` (top address
4096), and `D012` with `I = 4095` (second row read at 4096) — all abort. -/
theorem c5_unguarded_i_relative_access_witness :
    (execute_opcode inputs0 c5_cex_state = none) ∧
    (execute_opcode inputs0 c5_wit_state55 = none) ∧
    (execute_opcode inputs0 c5_wit_state65 = none) ∧
    (execute_opcode inputs0 c5_wit_stateD = none) := by
  refine ⟨?_, ?_, ?_, ?_⟩
  · exact (c5_unguarded_i_relative_access c5_cex_state inputs0 0 0 0
      (by decide) (by decide) (by decide) (by decide)).1
      (by decide) (by decide) (by decide)
  · exact (c5_unguarded_i_relative_access c5_wit_state55 inputs0 6 0 0
      (by decide) (by decide) (by decide) (by decide)).2.1
      (by decide) (by decide) (by decide)
  · exact (c5_unguarded_i_relative_access c5_wit_state65 inputs0 6 0 0
      (by decide) (by decide) (by decide) (by decide)).2.2.1
      (by decide) (by decide) (by decide)
  · exact (c5_unguarded_i_relative_access c5_wit_stateD inputs0 0 1 2
      (by decide) (by decide) (by decide) (by decide)).2.2.2
      (by decide) (by decide) (by decide) (by decide)

/-- C5 counterexample: `F033` with `I = 4095` attempts the BCD write at
effective address 4096 > 4095: execution aborts (out-of-bounds panic,
modelled `none`) instead of being prevented by a guard.  The second
conjunct refutes the claim that the access is guarded so the instruction
always completes within bounds. -/
theorem c5_unguarded_i_relative_access_cex :
    (execute_opcode inputs0 c5_cex_state = none) ∧
    (((execute_opcode inputs0 c5_cex_state).isSome = true) = False) :=
  ⟨by rfl, eq_false (by decide)⟩

theorem initial_state_memory_hi (a : Nat) (h : 80 ≤ a) : initial_state.memory a = 0 := by
  show copy_into (fun _ => 0) 0 font_data a = 0
  unfold copy_into
  have hlen : font_data.length = 80 := by rfl
  have hno : ¬(0 ≤ a ∧ a < 0 + font_data.length) := by
    rw [hlen]
    omega
  rw [if_neg hno]

theorem c6_step (k : Nat) (inp : Inputs) (c : CoreState)
    (h : execute_opcode inp
      { initial_state with program_counter := 512 + 2 * k } = some c) :
    c = { initial_state with program_counter := 512 + 2 * (k + 1) } := by
  by_cases hc : 512 + 2 * k + 1 < 4096
  · rw [fetch_unfold inp _ hc] at h
    have hm1 : ({ initial_state with program_counter := 512 + 2 * k }
        : CoreState).memory
        ({ initial_state with program_counter := 512 + 2 * k }
          : CoreState).program_counter = 0 :=
      initial_state_memory_hi (512 + 2 * k) (by omega)
    have hm2 : ({ initial_state with program_counter := 512 + 2 * k }
        : CoreState).memory
        (({ initial_state with program_counter := 512 + 2 * k }
          : CoreState).program_counter + 1) = 0 :=
      initial_state_memory_hi (512 + 2 * k + 1) (by omega)
    rw [hm1, hm2] at h
    norm_num at h
    unfold execute_opcode_body at h
    norm_num at h
    unfold execute_opcode_0 at h
    norm_num at h
    exact h.symm
  · unfold execute_opcode at h
    rw [if_neg hc] at h
    exact Option.noConfusion h

/-- C6, corrected.  `program_counter` starts at 512 and, in every state
reachable from the freshly initialised machine (no ROM loaded, memory above
the font all zero, so every fetched opcode is the no-op `0000`) by
executing instructions, `program_counter` stays even.  The claim's
unrestricted "always even-aligned" is false once a ROM is loaded: `1NNN`
(and `2NNN`/`BNNN`/`00EE`) store an arbitrary 12-bit target, so a jump to
an odd address makes the PC odd — see the counterexample. -/
theorem c6_pc_even_no_rom :
    initial_state.program_counter = 512 ∧
    ∀ s, Reaches initial_state s → s.program_counter % 2 = 0 := by
  constructor
  · rfl
  · intro s h
    have hinv : ∃ k, s = { initial_state with program_counter := 512 + 2 * k } := by
      induction h with
      | refl => exact ⟨0, rfl⟩
      | tail b c inp hr hstep ih =>
        obtain ⟨k, rfl⟩ := ih
        exact ⟨k + 1, c6_step k inp _ hstep⟩
    obtain ⟨k, rfl⟩ := hinv
    show (512 + 2 * k) % 2 = 0
    omega

/-- C6 witness: the invariant applied to the initial state itself. -/
theorem c6_pc_even_no_rom_witness :
    initial_state.program_counter = 512 ∧ initial_state.program_counter % 2 = 0 :=
  ⟨c6_pc_even_no_rom.1,
    c6_pc_even_no_rom.2 initial_state (Reaches.refl initial_state)⟩

/-- C6 counterexample: load the two-byte ROM `[0x10, 0x01]` (the
instruction `1NNN` with odd target 0x001) and execute one instruction from
the post-load state: `program_counter` becomes 1, which is odd — refuting
"in every machine state reachable from the initial state by executing
instructions, program_counter is even" for the machine's actual lifecycle
(initialise, load ROM, execute).  The second conjunct refutes the claimed
evenness. -/
theorem c6_pc_even_no_rom_cex :
    ((execute_opcode inputs0
      (load_game initial_state "p" "r" (.ok [0x10, 0x01]))).map
      (fun t => t.program_counter % 2) = some 1) ∧
    (((execute_opcode inputs0
      (load_game initial_state "p" "r" (.ok [0x10, 0x01]))).map
      (fun t => t.program_counter % 2) = some 0) = False) :=
  ⟨by decide, eq_false (by decide)⟩
